import Mathlib

/-!
# Room session coordinator of `server.js`

A shallow embedding of the socket handlers of `src/server.js` (room registry,
quiz timer, answer evaluation) as pure state-passing functions, followed by
the properties established about them.

Modelling conventions.

* Room ids, socket ids and question ids are strings.  `roomUsers` and `timers`
  are plain JavaScript objects; their own properties are association lists
  (`getProp`, `setProp`, `deleteProp`).
* `roomUsers` is read and written with any string a client sends, so its reads
  follow the prototype chain (`roomUsersRead`): a name that `Object.prototype`
  defines, such as `constructor`, reads as a function when `roomUsers` has no
  property of its own with that name, and `__proto__` is the accessor of the
  prototype (`roomUsersWrite`, `protoValue`).  Every read of `timers` follows a
  write to the same key, and a value that is no timer handle clears nothing,
  so `timers` is read through its own properties.
* A slot of `roomUsers` holds a number or a `{ currentQuestionIndex }` object.
  Numbers are integers or `NaN`; counts stay far below `2^53`, where the
  arithmetic of doubles on integers is exact.
* `setInterval` / `clearInterval` are modelled by the list of live intervals,
  each carrying the `timeLeft` variable captured by its callback.  Running the
  callback of one live interval is `intervalCallback`; `elapseSecond` runs the
  callback of every interval once.
* `io.to(room).emit` and `socket.emit` append a message to the output of the
  handler; `console.log` is dropped.  `socket.join(roomId)` adds the pair of
  the socket and the room to `State.attached`; what the transport does by
  itself when a socket connects or closes is not code of `server.js`, and the
  one place that reads the transport, `socket.rooms` in the `disconnect`
  handler, takes it as an argument.
-/

namespace QuizServer

/-! ## JavaScript objects as association lists -/

/-- Read of an own property of `obj`; `none` when `obj` has no property of its
own with that name. -/
def getProp {β : Type} (obj : List (String × β)) (key : String) : Option β :=
  match obj with
  | [] => none
  | (k, v) :: rest => if k = key then some v else getProp rest key

/-- Creation or update of the own property `key` of `obj`. -/
def setProp {β : Type} (obj : List (String × β)) (key : String) (v : β) : List (String × β) :=
  match obj with
  | [] => [(key, v)]
  | (k, w) :: rest => if k = key then (k, v) :: rest else (k, w) :: setProp rest key v

/-- Removal of the own property `key` of `obj`. -/
def deleteProp {β : Type} (obj : List (String × β)) (key : String) : List (String × β) :=
  match obj with
  | [] => []
  | (k, w) :: rest => if k = key then deleteProp rest key else (k, w) :: deleteProp rest key

/-- The property key a possibly `undefined` value converts to. -/
def propKey (room : Option String) : String :=
  match room with
  | some r => r
  | none => "undefined"

/-! ## Values -/

/-- What `roomUsers[roomId]` can evaluate to: a number, `NaN`, a
`{ currentQuestionIndex }` object, or a value that comes from
`Object.prototype` (one of its functions, or `Object.prototype` itself for the
key `__proto__`). -/
inductive RoomVal where
  | num (n : Int)
  | nan
  | session (currentQuestionIndex : Nat)
  | inherited
  deriving DecidableEq, Repr

/-- JavaScript truthiness of `roomUsers[roomId]`. -/
def truthy : Option RoomVal → Bool
  | none => false
  | some (.num n) => n != 0
  | some .nan => false
  | some (.session _) => true
  | some .inherited => true

/-- The value stored by `x++` (`ToNumber(x) + 1`). -/
def increment : Option RoomVal → RoomVal
  | some (.num n) => .num (n + 1)
  | some .nan => .nan
  | some (.session _) => .nan
  | some .inherited => .nan
  | none => .nan

/-- The value stored by `x--` (`ToNumber(x) - 1`). -/
def decrement : Option RoomVal → RoomVal
  | some (.num n) => .num (n - 1)
  | some .nan => .nan
  | some (.session _) => .nan
  | some .inherited => .nan
  | none => .nan

/-- The comparison `x <= 0`. -/
def leZero : RoomVal → Bool
  | .num n => decide (n ≤ 0)
  | .nan => false
  | .session _ => false
  | .inherited => false

/-! ## `roomUsers` and the prototype chain -/

/-- The names of the function-valued properties of `Object.prototype`. -/
def objectPrototypeKeys : List String :=
  ["constructor", "__defineGetter__", "__defineSetter__", "hasOwnProperty",
   "__lookupGetter__", "__lookupSetter__", "isPrototypeOf", "propertyIsEnumerable",
   "toString", "valueOf", "toLocaleString"]

/-- The prototype of `roomUsers`, which is what `roomUsers['__proto__']`
evaluates to.  It is `Object.prototype` until `roomUsers['__proto__'] =
{ currentQuestionIndex: 0 }` installs that session object as the prototype;
the association list keeps such an object under the key `__proto__`. -/
def protoValue (obj : List (String × RoomVal)) : RoomVal :=
  match getProp obj "__proto__" with
  | some (.session i) => .session i
  | _ => .inherited

/-- The read `roomUsers[key]`; `none` is `undefined`.  An own property wins;
otherwise the prototype chain answers: a session object installed as
prototype gives `currentQuestionIndex`, and `Object.prototype` gives its
functions. -/
def roomUsersRead (obj : List (String × RoomVal)) (key : String) : Option RoomVal :=
  if key = "__proto__" then some (protoValue obj)
  else
    match getProp obj key with
    | some v => some v
    | none =>
      if key ∈ objectPrototypeKeys then some .inherited
      else if key = "currentQuestionIndex" then
        match getProp obj "__proto__" with
        | some (.session i) => some (.num (i : Int))
        | _ => none
      else none

/-- The assignment `roomUsers[key] = v`.  It creates or updates an own
property, except for `__proto__`, whose setter installs an object as the
prototype and ignores a number. -/
def roomUsersWrite (obj : List (String × RoomVal)) (key : String) (v : RoomVal) :
    List (String × RoomVal) :=
  if key = "__proto__" then
    match v with
    | .session _ => setProp obj key v
    | _ => obj
  else setProp obj key v

/-- What `roomUsers[key]` evaluates to right after `roomUsers[key] = v`. -/
def valueAfterWrite (obj : List (String × RoomVal)) (key : String) (v : RoomVal) : RoomVal :=
  if key = "__proto__" then protoValue (roomUsersWrite obj key v) else v

/-- `delete roomUsers[key]`; `__proto__` is no own property and stays. -/
def roomUsersDelete (obj : List (String × RoomVal)) (key : String) : List (String × RoomVal) :=
  if key = "__proto__" then obj else deleteProp obj key

/-- A document of the `Question` collection fetched without its answer. -/
structure Question where
  _id : String
  question : String
  options : List String
  deriving DecidableEq, Repr

/-- A document fetched with `_id` and `answer` only.  `answer` is `some i` when
the stored number is the non-negative integer `i`, and `none` for every other
value (missing, negative, fractional): indexing `options` with those yields
`undefined`. -/
structure AnswerKey where
  _id : String
  answer : Option Nat
  deriving DecidableEq, Repr

/-- The payload of `submitAnswer`.  `questionId` is `none` when it is not a
string (no such value is `===` to an id string); `selectedOption` and `roomId`
are a string, or `none` for `undefined`.  Other JSON values in these two
fields are outside the model. -/
structure SubmitData where
  questionId : Option String
  selectedOption : Option String
  roomId : Option String
  deriving DecidableEq, Repr

/-- A live interval created by `setInterval` in `startQuizTimer`. -/
structure Interval where
  handle : Nat
  roomId : String
  timeLeft : Nat
  deriving DecidableEq, Repr

/-- The events emitted by the server. -/
inductive Event where
  | UserJoined (roomId : String) (joinedUsers : RoomVal)
  | UserLeft (joinedUsers : Option RoomVal)
  | error (text : String)
  | quizQuestions (questions : List Question)
  | quizStarted
  | quizTimerUpdate (timeLeft : Nat)
  | nextQuestion (currentQuestionIndex : Nat)
  | quizEnded
  | answerResult (success : Bool) (correct : Option Bool) (message : Option String)
  deriving DecidableEq, Repr

/-- An emission: `io.to(room).emit(..)` or `socket.emit(..)`. -/
inductive Msg where
  | toRoom (roomId : Option String) (e : Event)
  | toSocket (socketId : String) (e : Event)
  deriving DecidableEq, Repr

/-- The module-level variables of `server.js` together with the live
intervals of the event loop and the pairs (socket id, room id) for which a
handler has called `socket.join`. -/
structure State where
  questions : List Question
  answers : List AnswerKey
  createdRooms : List String
  roomUsers : List (String × RoomVal)
  timers : List (String × Nat)
  intervals : List Interval
  nextHandle : Nat
  attached : List (String × String)
  deriving DecidableEq, Repr

/-- The state right after the module is loaded. -/
def State.initial : State :=
  { questions := [], answers := [], createdRooms := [], roomUsers := [],
    timers := [], intervals := [], nextHandle := 0, attached := [] }

/-! ## Handlers -/

/-- `createdRooms.add(roomId)`. -/
def setAdd (s : List String) (x : String) : List String :=
  if x ∈ s then s else s ++ [x]

/-- `socket.join(roomId)`: the socket is attached to the room. -/
def socketJoin (attached : List (String × String)) (socketId roomId : String) :
    List (String × String) :=
  if (socketId, roomId) ∈ attached then attached else attached ++ [(socketId, roomId)]

/-- `socket.on('createRoom', ..)`. -/
def createRoom (st : State) (socketId : String) (roomId : String) : State × List Msg :=
  let st1 := { st with createdRooms := setAdd st.createdRooms roomId
                       attached := socketJoin st.attached socketId roomId }
  let st2 :=
    if !truthy (roomUsersRead st1.roomUsers roomId) then
      { st1 with roomUsers := roomUsersWrite st1.roomUsers roomId (.num 0) }
    else st1
  let joinedUsers :=
    match roomUsersRead st2.roomUsers roomId with
    | some v => if truthy (some v) then v else .num 0
    | none => .num 0
  (st2, [.toRoom (some roomId) (.UserJoined roomId joinedUsers)])

/-- `socket.on('joinRoom', ..)`.  The broadcast carries `roomUsers[roomId]`
as it reads after the increment was assigned. -/
def joinRoom (st : State) (socketId : String) (roomId : String) : State × List Msg :=
  if roomId ∈ st.createdRooms then
    let st0 := { st with attached := socketJoin st.attached socketId roomId }
    let st1 :=
      if !truthy (roomUsersRead st0.roomUsers roomId) then
        { st0 with roomUsers := roomUsersWrite st0.roomUsers roomId (.num 0) }
      else st0
    let incremented := increment (roomUsersRead st1.roomUsers roomId)
    let st2 := { st1 with roomUsers := roomUsersWrite st1.roomUsers roomId incremented }
    (st2, [.toRoom (some roomId)
      (.UserJoined roomId (valueAfterWrite st1.roomUsers roomId incremented))])
  else
    (st, [.toSocket socketId (.error "Room not found")])

/-- `startQuizTimer(roomId)`. -/
def startQuizTimer (st : State) (roomId : String) : State × List Msg :=
  ({ st with
      intervals := st.intervals ++ [{ handle := st.nextHandle, roomId := roomId, timeLeft := 6 }]
      timers := setProp st.timers roomId st.nextHandle
      nextHandle := st.nextHandle + 1 },
   [.toRoom (some roomId) .quizStarted])

/-- `socket.on('startQuiz', ..)`. -/
def startQuiz (st : State) (socketId : String) (roomId : String) : State × List Msg :=
  if roomId ∈ st.createdRooms then
    startQuizTimer { st with roomUsers := roomUsersWrite st.roomUsers roomId (.session 0) } roomId
  else
    (st, [.toSocket socketId (.error "Room not found")])

/-- `nextQuestion(roomId)`. -/
def nextQuestion (st : State) (roomId : String) : State × List Msg :=
  match roomUsersRead st.roomUsers roomId with
  | some (.session i) =>
    if (i : Int) < (st.questions.length : Int) - 1 then
      let st1 := { st with roomUsers := roomUsersWrite st.roomUsers roomId (.session (i + 1)) }
      let r := startQuizTimer st1 roomId
      (r.1, .toRoom (some roomId) (.nextQuestion (i + 1)) :: r.2)
    else
      (st, [.toRoom (some roomId) .quizEnded])
  | _ => (st, [.toRoom (some roomId) .quizEnded])

/-- `clearInterval(h)`; `clearInterval(undefined)`, like `clearInterval` of any
value that is no timer handle, does nothing. -/
def clearInterval (st : State) (h : Option Nat) : State :=
  match h with
  | some n => { st with intervals := st.intervals.filter (fun iv => iv.handle != n) }
  | none => st

/-- One run of the callback given to `setInterval`, for the interval `handle`.
A cleared interval never runs. -/
def intervalCallback (st : State) (handle : Nat) : State × List Msg :=
  match st.intervals.find? (fun iv => iv.handle == handle) with
  | none => (st, [])
  | some iv =>
    if iv.timeLeft > 0 then
      ({ st with intervals := st.intervals.map (fun j =>
            if j.handle == handle then { j with timeLeft := iv.timeLeft - 1 } else j) },
       [.toRoom (some iv.roomId) (.quizTimerUpdate (iv.timeLeft - 1))])
    else
      nextQuestion (clearInterval st (getProp st.timers iv.roomId)) iv.roomId

/-- `socket.on('disconnect', ..)`; `rooms` is `socket.rooms` as the handler
sees it. -/
def disconnect (st : State) (socketId : String) (rooms : List String) : State × List Msg :=
  let room := rooms.find? (fun room => room == socketId)
  match roomUsersRead st.roomUsers (propKey room) with
  | some v =>
    let st1 :=
      { st with roomUsers := roomUsersWrite st.roomUsers (propKey room) (decrement (some v)) }
    if leZero (valueAfterWrite st.roomUsers (propKey room) (decrement (some v))) then
      ({ st1 with roomUsers := roomUsersDelete st1.roomUsers (propKey room) }, [])
    else
      (st1, [.toRoom room (.UserLeft (roomUsersRead st1.roomUsers (propKey room)))])
  | none => (st, [])

/-- The `leave-room` listener of the adapter. -/
def adapterLeaveRoom (st : State) (room : String) : State × List Msg :=
  (st, [.toRoom (some room) (.UserLeft (roomUsersRead st.roomUsers room))])

/-- `handleJoinQuiz(socket)`; `fetchedQuestions` and `fetchedAnswers` are the
outcomes of the two `Question.find` calls, `none` when the call rejects. -/
def handleJoinQuiz (st : State) (socketId : String)
    (fetchedQuestions : Option (List Question)) (fetchedAnswers : Option (List AnswerKey)) :
    State × List Msg :=
  match fetchedQuestions with
  | none => (st, [.toSocket socketId (.error "Error fetching questions from the database")])
  | some qs =>
    let st1 := { st with questions := qs }
    match fetchedAnswers with
    | none => (st1, [.toSocket socketId (.error "Error fetching questions from the database")])
    | some ans =>
      let st2 := { st1 with answers := ans }
      (st2, [.toSocket socketId (.quizQuestions st2.questions)])

/-- The element access `options[answer]`. -/
def optionAt (options : List String) (answer : Option Nat) : Option String :=
  match answer with
  | some i => options.get? i
  | none => none

/-- `handleSubmitAnswer(socket, data)`; `data` is `none` when the payload cannot
be destructured (`undefined` or `null`). -/
def handleSubmitAnswer (st : State) (socketId : String) (data : Option SubmitData) :
    State × List Msg :=
  match data with
  | none => (st, [.toSocket socketId (.error "Error processing answer")])
  | some d =>
    match st.questions.find? (fun q => some q._id == d.questionId) with
    | none =>
      (st, [.toSocket socketId (.answerResult false none (some "Question not found"))])
    | some question =>
      match d.roomId with
      | none =>
        (st, [.toSocket socketId (.answerResult false none (some "Team ID not provided"))])
      | some roomId =>
        match st.answers.find? (fun a => some a._id == d.questionId) with
        | none => (st, [.toSocket socketId (.error "Error processing answer")])
        | some correctAnswer =>
          let isCorrect := decide (optionAt question.options correctAnswer.answer = d.selectedOption)
          (st, [.toRoom (some roomId) (.answerResult true (some isCorrect) none)])

/-! ## Event sequences -/

/-- What can happen to the server: an inbound socket event, an adapter
notification, or one run of a timer callback. -/
inductive Action where
  | createRoom (socketId roomId : String)
  | joinRoom (socketId roomId : String)
  | joinQuiz (socketId : String) (fetchedQuestions : Option (List Question))
      (fetchedAnswers : Option (List AnswerKey))
  | startQuiz (socketId roomId : String)
  | submitAnswer (socketId : String) (data : Option SubmitData)
  | disconnect (socketId : String) (rooms : List String)
  | leaveRoom (room : String)
  | tick (handle : Nat)
  deriving DecidableEq, Repr

/-- Dispatch of one action to its handler. -/
def step (st : State) : Action → State × List Msg
  | .createRoom socketId roomId => createRoom st socketId roomId
  | .joinRoom socketId roomId => joinRoom st socketId roomId
  | .joinQuiz socketId fq fa => handleJoinQuiz st socketId fq fa
  | .startQuiz socketId roomId => startQuiz st socketId roomId
  | .submitAnswer socketId data => handleSubmitAnswer st socketId data
  | .disconnect socketId rooms => disconnect st socketId rooms
  | .leaveRoom room => adapterLeaveRoom st room
  | .tick handle => intervalCallback st handle

/-- Run a sequence of actions, collecting the emitted messages in order. -/
def run (st : State) : List Action → State × List Msg
  | [] => (st, [])
  | a :: rest =>
    let r := step st a
    let r2 := run r.1 rest
    (r2.1, r.2 ++ r2.2)

/-- One second of wall-clock time: every interval live at the start of the
second gets its callback run once, oldest first (one cleared meanwhile is
skipped by `intervalCallback`). -/
def elapseSecond (st : State) : State × List Msg :=
  run st (st.intervals.map (fun iv => Action.tick iv.handle))

/-- Let `n` seconds elapse. -/
def elapse (st : State) : Nat → State × List Msg
  | 0 => (st, [])
  | n + 1 =>
    let r := elapseSecond st
    let r2 := elapse r.1 n
    (r2.1, r.2 ++ r2.2)

/-- A state is reachable when some sequence of actions leads to it from the
initial state. -/
def Reachable (st : State) : Prop :=
  ∃ actions : List Action, (run State.initial actions).1 = st

/-! ## Predicates on states and messages -/

/-- Every session object kept in `obj` has an index below `n`. -/
def SessionsBelow (n : Nat) (obj : List (String × RoomVal)) : Prop :=
  ∀ r i, getProp obj r = some (RoomVal.session i) → i < n

/-- Every session index is below the number of loaded questions. -/
def IndexInRange (st : State) : Prop :=
  SessionsBelow st.questions.length st.roomUsers

/-- What an action has to respect in the state it is processed in for the
bound on the session indices to survive it: a `startQuiz` of a created room
finds a catalog that is not empty, and a reload whose question fetch succeeds
brings more questions than the index of every session.  Every other action,
a failed reload included, is free. -/
def Action.keepsIndexInRange (st : State) : Action → Prop
  | .startQuiz _ roomId => roomId ∈ st.createdRooms → st.questions ≠ []
  | .joinQuiz _ (some fetched) _ => SessionsBelow fetched.length st.roomUsers
  | _ => True

/-- Every action of the sequence respects `keepsIndexInRange` in the state it
is processed in. -/
def RunKeepsIndexInRange (st : State) : List Action → Prop
  | [] => True
  | a :: rest => a.keepsIndexInRange st ∧ RunKeepsIndexInRange (step st a).1 rest

/-- Whether a message announces an advance: `nextQuestion` or `quizEnded`. -/
def Msg.isAdvance : Msg → Bool
  | .toRoom _ (.nextQuestion _) => true
  | .toRoom _ .quizEnded => true
  | _ => false

/-- The `quizTimerUpdate` broadcasts of a countdown from `t`: `t-1, ..., 0`. -/
def countdownMsgs (roomId : String) : Nat → List Msg
  | 0 => []
  | t + 1 => Msg.toRoom (some roomId) (Event.quizTimerUpdate t) :: countdownMsgs roomId t

/-- The `correct` field of the payload of a message, when it has one. -/
def Msg.correctFlag : Msg → Option Bool
  | .toRoom _ (.answerResult _ c _) => c
  | .toSocket _ (.answerResult _ c _) => c
  | _ => none

/-- The handle of every live interval is below the next handle to be given out. -/
def HandlesFresh (st : State) : Prop :=
  ∀ iv ∈ st.intervals, iv.handle < st.nextHandle

/-! ## Scenarios -/

/-- The catalog of the worked example: one question `q1` with options
`A`, `B`, `C` whose answer key is index `1`. -/
def exampleCatalog : State :=
  { State.initial with
    questions := [{ _id := "q1", question := "?", options := ["A", "B", "C"] }]
    answers := [{ _id := "q1", answer := some 1 }] }

/-- A room is created and its quiz is started twice, with no tick in between. -/
def doubleStart : List Action :=
  [.createRoom "s1" "r", .startQuiz "s1" "r", .startQuiz "s1" "r"]

/-- Room `r` is created, socket `s1` joins it and then disconnects; `rooms` is
what `socket.rooms` holds when the `disconnect` handler runs. -/
def joinThenLeave (rooms : List String) : List Action :=
  [.createRoom "s0" "r", .joinRoom "s1" "r", .disconnect "s1" rooms]

/-- Room `r` is created and joined, its quiz is started, and a second socket
joins. -/
def joinAfterStart : List Action :=
  [.createRoom "s1" "r", .joinRoom "s1" "r", .startQuiz "s1" "r", .joinRoom "s2" "r"]

/-- A catalog of three questions and one created room `r`, no quiz started. -/
def threeQuestions : State :=
  { State.initial with
    questions := [{ _id := "q1", question := "?", options := ["A", "B"] },
                  { _id := "q2", question := "?", options := ["A", "B"] },
                  { _id := "q3", question := "?", options := ["A", "B"] }]
    createdRooms := ["r"] }

/-- The answer keys that go with `threeQuestions`. -/
def threeAnswers : List AnswerKey :=
  [{ _id := "q1", answer := some 0 }, { _id := "q2", answer := some 1 },
   { _id := "q3", answer := some 0 }]

/-- Room `r` is created and joined by one socket, its quiz is started, and
that socket disconnects (`socket.rooms` is already empty when the handler
runs). -/
def lastMemberLeaves : List Action :=
  [.createRoom "s1" "r", .joinRoom "s1" "r", .startQuiz "s1" "r", .disconnect "s1" []]

/-- A room named `undefined` is created and its quiz started; two sockets join
and the second one disconnects with an empty `socket.rooms`, so that the
handler resolves the room to `undefined` and discards that entry. -/
def entryDiscarded : List Action :=
  [.createRoom "s1" "undefined", .startQuiz "s1" "undefined", .joinRoom "s2" "undefined",
   .joinRoom "s3" "undefined", .disconnect "s3" []]

/-- A quiz is started before any catalog was loaded. -/
def emptyCatalogStart : List Action :=
  [.createRoom "s1" "r", .startQuiz "s1" "r"]

/-- Three questions are loaded, a quiz is started and runs through its first
countdown (seven timer runs), then a reload brings a catalog of one question. -/
def reloadMidQuiz : List Action :=
  [.joinQuiz "s1" (some threeQuestions.questions) (some threeAnswers),
   .createRoom "s1" "r", .startQuiz "s1" "r",
   .tick 0, .tick 0, .tick 0, .tick 0, .tick 0, .tick 0, .tick 0,
   .joinQuiz "s2" (some (threeQuestions.questions.take 1)) (some (threeAnswers.take 1))]

/-- Three questions are loaded, a quiz is started and runs through its first
countdown, so that the session index is `1`; then the same catalog is loaded
again, a reload fails, and a reload brings the first two questions (its
answer fetch fails). -/
def reloadsThatKeep : List Action :=
  [.joinQuiz "s1" (some threeQuestions.questions) (some threeAnswers),
   .createRoom "s1" "r", .startQuiz "s1" "r",
   .tick 0, .tick 0, .tick 0, .tick 0, .tick 0, .tick 0, .tick 0,
   .joinQuiz "s2" (some threeQuestions.questions) (some threeAnswers),
   .joinQuiz "s2" none none,
   .joinQuiz "s2" (some (threeQuestions.questions.take 2)) none]

/-- The catalog of `exampleCatalog` with another answer-key index for `q1`. -/
def exampleCatalogKey2 : State :=
  { exampleCatalog with answers := [{ _id := "q1", answer := some 2 }] }

/-- Room `b` has a countdown running when a countdown is started for room `r`. -/
def otherRoomRunning : State :=
  (run threeQuestions [.createRoom "s1" "b", .startQuiz "s1" "b"]).1

/-- Room `a` has been created by socket `s0`; nothing else has happened. -/
def roomACreated : State :=
  (createRoom State.initial "s0" "a").1

/-- Room `r` has been created and joined once, so that its count is `1`. -/
def roomRJoinedOnce : State :=
  (run State.initial [.createRoom "s1" "r", .joinRoom "s1" "r"]).1

/-! ## Supporting lemmas -/

theorem getProp_setProp {β : Type} (obj : List (String × β)) (k k2 : String) (v : β) :
    getProp (setProp obj k v) k2 = if k = k2 then some v else getProp obj k2 := by
  induction obj with
  | nil => simp [setProp, getProp]
  | cons e rest ih =>
    obtain ⟨a, w⟩ := e
    by_cases h1 : a = k
    · subst h1
      by_cases h2 : a = k2 <;> simp [setProp, getProp, h2]
    · by_cases h2 : a = k2
      · subst h2
        simp [setProp, getProp, h1, Ne.symm h1]
      · simp [setProp, getProp, h1, h2, ih]

theorem getProp_deleteProp {β : Type} (obj : List (String × β)) (k k2 : String) :
    getProp (deleteProp obj k) k2 = if k = k2 then none else getProp obj k2 := by
  induction obj with
  | nil => simp [deleteProp, getProp]
  | cons e rest ih =>
    obtain ⟨a, w⟩ := e
    by_cases h1 : a = k
    · subst h1
      by_cases h2 : a = k2
      · subst h2
        simpa [deleteProp] using ih
      · simp [deleteProp, getProp, h2, ih]
    · by_cases h2 : a = k2
      · subst h2
        simp [deleteProp, getProp, h1, Ne.symm h1]
      · simp [deleteProp, getProp, h1, h2, ih]

theorem increment_ne_session (x : Option RoomVal) (i : Nat) : increment x ≠ RoomVal.session i := by
  rcases x with _ | (_ | _ | _ | _) <;> simp [increment]

theorem decrement_ne_session (x : Option RoomVal) (i : Nat) : decrement x ≠ RoomVal.session i := by
  rcases x with _ | (_ | _ | _ | _) <;> simp [decrement]

theorem roomUsersWrite_session (obj : List (String × RoomVal)) (k : String) (i : Nat) :
    roomUsersWrite obj k (RoomVal.session i) = setProp obj k (RoomVal.session i) := by
  unfold roomUsersWrite
  split <;> rfl

theorem roomUsersWrite_of_ne (obj : List (String × RoomVal)) (k : String) (v : RoomVal)
    (hk : k ≠ "__proto__") : roomUsersWrite obj k v = setProp obj k v := by
  simp [roomUsersWrite, hk]

theorem roomUsersRead_eq_session (obj : List (String × RoomVal)) (k : String) (i : Nat) :
    roomUsersRead obj k = some (RoomVal.session i) ↔ getProp obj k = some (RoomVal.session i) := by
  unfold roomUsersRead
  by_cases hk : k = "__proto__"
  · subst hk
    simp only [if_true, protoValue]
    constructor
    · intro h
      split at h
      · next j hj => rw [hj]; exact h
      · simp at h
    · intro h
      rw [h]
  · simp only [hk, if_false]
    cases hg : getProp obj k with
    | some v => rfl
    | none =>
      simp only []
      constructor
      · intro h
        split at h
        · simp at h
        · split at h
          · split at h <;> simp at h
          · simp at h
      · intro h
        simp at h

theorem getProp_roomUsersWrite (obj : List (String × RoomVal)) (k k2 : String) (v : RoomVal) :
    getProp (roomUsersWrite obj k v) k2 = getProp obj k2
    ∨ (k = k2 ∧ getProp (roomUsersWrite obj k v) k2 = some v) := by
  unfold roomUsersWrite
  by_cases hk : k = "__proto__"
  · simp only [hk, if_true]
    cases v with
    | session i =>
      simp only [getProp_setProp]
      by_cases h2 : "__proto__" = k2
      · exact Or.inr ⟨h2, by simp [h2]⟩
      · exact Or.inl (by simp [h2])
    | num n => exact Or.inl rfl
    | nan => exact Or.inl rfl
    | inherited => exact Or.inl rfl
  · simp only [hk, if_false, getProp_setProp]
    by_cases h2 : k = k2
    · exact Or.inr ⟨h2, by simp [h2]⟩
    · exact Or.inl (by simp [h2])

theorem getProp_roomUsersWrite_of_ne (obj : List (String × RoomVal)) (k k2 : String)
    (v : RoomVal) (h : k ≠ k2) : getProp (roomUsersWrite obj k v) k2 = getProp obj k2 := by
  rcases getProp_roomUsersWrite obj k k2 v with h1 | ⟨h1, _⟩
  · exact h1
  · exact absurd h1 h

theorem getProp_roomUsersDelete (obj : List (String × RoomVal)) (k k2 : String) :
    getProp (roomUsersDelete obj k) k2 = getProp obj k2
    ∨ (k = k2 ∧ getProp (roomUsersDelete obj k) k2 = none) := by
  unfold roomUsersDelete
  by_cases hk : k = "__proto__"
  · simp [hk]
  · simp only [hk, if_false, getProp_deleteProp]
    by_cases h2 : k = k2
    · exact Or.inr ⟨h2, by simp [h2]⟩
    · exact Or.inl (by simp [h2])

theorem getProp_roomUsersDelete_of_ne (obj : List (String × RoomVal)) (k k2 : String)
    (h : k ≠ k2) : getProp (roomUsersDelete obj k) k2 = getProp obj k2 := by
  rcases getProp_roomUsersDelete obj k k2 with h1 | ⟨h1, _⟩
  · exact h1
  · exact absurd h1 h

theorem roomUsersRead_write (obj : List (String × RoomVal)) (k : String) (v : RoomVal) :
    roomUsersRead (roomUsersWrite obj k v) k = some (valueAfterWrite obj k v) := by
  by_cases hk : k = "__proto__"
  · simp [roomUsersRead, valueAfterWrite, hk]
  · simp [roomUsersRead, valueAfterWrite, roomUsersWrite, hk, getProp_setProp]

theorem valueAfterWrite_of_ne (obj : List (String × RoomVal)) (k : String) (v : RoomVal)
    (hk : k ≠ "__proto__") : valueAfterWrite obj k v = v := by
  simp [valueAfterWrite, hk]

theorem sessionsBelow_write (n : Nat) (obj : List (String × RoomVal)) (k : String)
    (v : RoomVal) (h : SessionsBelow n obj) (hv : ∀ i, v = RoomVal.session i → i < n) :
    SessionsBelow n (roomUsersWrite obj k v) := by
  intro r i hr
  rcases getProp_roomUsersWrite obj k r v with h1 | ⟨_, h1⟩
  · rw [h1] at hr
    exact h r i hr
  · rw [h1] at hr
    exact hv i (Option.some.inj hr)

theorem sessionsBelow_delete (n : Nat) (obj : List (String × RoomVal)) (k : String)
    (h : SessionsBelow n obj) : SessionsBelow n (roomUsersDelete obj k) := by
  intro r i hr
  rcases getProp_roomUsersDelete obj k r with h1 | ⟨_, h1⟩
  · rw [h1] at hr
    exact h r i hr
  · rw [h1] at hr
    simp at hr

theorem handleSubmitAnswer_state (st : State) (socketId : String) (data : Option SubmitData) :
    (handleSubmitAnswer st socketId data).1 = st := by
  unfold handleSubmitAnswer
  repeat' split
  all_goals rfl

theorem nextQuestion_questions (st : State) (roomId : String) :
    (nextQuestion st roomId).1.questions = st.questions := by
  unfold nextQuestion
  repeat' split
  all_goals rfl

theorem nextQuestion_indexInRange (st : State) (roomId : String) (h : IndexInRange st) :
    IndexInRange (nextQuestion st roomId).1 := by
  unfold nextQuestion
  split
  · next i hi =>
    split
    · next hlt =>
      refine sessionsBelow_write st.questions.length _ _ _ h ?_
      intro j hj
      simp only [RoomVal.session.injEq] at hj
      subst hj
      omega
    · exact h
  · exact h

theorem clearInterval_indexInRange (st : State) (h : Option Nat) (hin : IndexInRange st) :
    IndexInRange (clearInterval st h) := by
  unfold clearInterval
  split
  · exact hin
  · exact hin

theorem step_indexInRange (st : State) (a : Action) (hin : IndexInRange st)
    (ha : a.keepsIndexInRange st) : IndexInRange (step st a).1 := by
  cases a with
  | createRoom s r =>
    simp only [step, createRoom]
    split
    · exact sessionsBelow_write _ _ _ _ hin (fun i hi => by simp at hi)
    · exact hin
  | joinRoom s r =>
    simp only [step, joinRoom]
    split
    · split
      · exact sessionsBelow_write _ _ _ _
          (sessionsBelow_write _ _ _ _ hin (fun i hi => by simp at hi))
          (fun i hi => absurd hi (increment_ne_session _ i))
      · exact sessionsBelow_write _ _ _ _ hin
          (fun i hi => absurd hi (increment_ne_session _ i))
    · exact hin
  | joinQuiz s fq fa =>
    cases fq with
    | none => exact hin
    | some fetched =>
      have hk : ∀ r i, getProp st.roomUsers r = some (RoomVal.session i) → i < fetched.length := ha
      cases fa with
      | none => exact hk
      | some ans => exact hk
  | startQuiz s r =>
    simp only [step, startQuiz, startQuizTimer]
    split
    · next hroom =>
      have hne : st.questions ≠ [] := ha hroom
      refine sessionsBelow_write _ _ _ _ hin ?_
      intro i hi
      simp only [RoomVal.session.injEq] at hi
      subst hi
      exact List.length_pos.mpr hne
    · exact hin
  | submitAnswer s d => simpa only [step, handleSubmitAnswer_state] using hin
  | disconnect s rooms =>
    simp only [step, disconnect]
    split
    · split
      · exact sessionsBelow_delete _ _ _
          (sessionsBelow_write _ _ _ _ hin (fun i hi => absurd hi (decrement_ne_session _ i)))
      · exact sessionsBelow_write _ _ _ _ hin
          (fun i hi => absurd hi (decrement_ne_session _ i))
    · exact hin
  | leaveRoom r => exact hin
  | tick h =>
    simp only [step, intervalCallback]
    split
    · exact hin
    · split
      · exact hin
      · exact nextQuestion_indexInRange _ _ (clearInterval_indexInRange _ _ hin)

theorem run_indexInRange (actions : List Action) :
    ∀ st : State, IndexInRange st → RunKeepsIndexInRange st actions →
      IndexInRange (run st actions).1 := by
  induction actions with
  | nil => intro st hin _; exact hin
  | cons a rest ih =>
    intro st hin hok
    exact ih (step st a).1 (step_indexInRange st a hin hok.1) hok.2

theorem sessionsBelow_of_all (n : Nat) (obj : List (String × RoomVal))
    (h : obj.all (fun e => match e.2 with
      | RoomVal.session i => decide (i < n)
      | _ => true) = true) : SessionsBelow n obj := by
  induction obj with
  | nil => intro r i hr; simp [getProp] at hr
  | cons e rest ih =>
    obtain ⟨k, v⟩ := e
    simp only [List.all_cons, Bool.and_eq_true] at h
    intro r i hr
    simp only [getProp] at hr
    split at hr
    · simp only [Option.some.injEq] at hr
      subst hr
      simpa using h.1
    · exact ih h.2 r i hr

theorem keepsIndexInRange_of_not_shorter (st : State) (socketId : String)
    (fetched : List Question) (fa : Option (List AnswerKey)) (hin : IndexInRange st)
    (hlen : st.questions.length ≤ fetched.length) :
    (Action.joinQuiz socketId (some fetched) fa).keepsIndexInRange st :=
  fun r i hr => Nat.lt_of_lt_of_le (hin r i hr) hlen

theorem elapse_add (a b : Nat) : ∀ st : State,
    elapse st (a + b) = ((elapse (elapse st a).1 b).1, (elapse st a).2 ++ (elapse (elapse st a).1 b).2) := by
  induction a with
  | zero => intro st; simp [elapse]
  | succ a ih =>
    intro st
    have h : a + 1 + b = (a + b) + 1 := by omega
    rw [h]
    simp only [elapse, ih, List.append_assoc]

theorem elapse_idle (k : Nat) : ∀ st : State, st.intervals = [] → elapse st k = (st, []) := by
  induction k with
  | zero => intro st _; rfl
  | succ k ih =>
    intro st h
    have h1 : elapseSecond st = (st, []) := by simp [elapseSecond, h, run]
    simp only [elapse, h1, ih st h, List.append_nil]

theorem elapseSecond_single (st : State) (h : Nat) (r : String) (t : Nat)
    (hiv : st.intervals = [{ handle := h, roomId := r, timeLeft := t }]) :
    elapseSecond st = intervalCallback st h := by
  simp [elapseSecond, hiv, run, step]

theorem elapseSecond_counting (st : State) (h : Nat) (r : String) (t : Nat)
    (hiv : st.intervals = [{ handle := h, roomId := r, timeLeft := t + 1 }]) :
    elapseSecond st = ({ st with intervals := [{ handle := h, roomId := r, timeLeft := t }] },
      [Msg.toRoom (some r) (Event.quizTimerUpdate t)]) := by
  rw [elapseSecond_single st h r (t + 1) hiv]
  simp [intervalCallback, hiv]

theorem elapse_countdown (t : Nat) : ∀ (st : State) (h : Nat) (r : String),
    st.intervals = [{ handle := h, roomId := r, timeLeft := t }] →
    elapse st t = ({ st with intervals := [{ handle := h, roomId := r, timeLeft := 0 }] },
      countdownMsgs r t) := by
  induction t with
  | zero => intro st h r hiv; simp [elapse, countdownMsgs, ← hiv]
  | succ t ih =>
    intro st h r hiv
    simp only [elapse, elapseSecond_counting st h r t hiv]
    rw [ih _ h r rfl]
    simp [countdownMsgs]

theorem elapseSecond_advance (st : State) (h : Nat) (r : String) (i : Nat)
    (hiv : st.intervals = [{ handle := h, roomId := r, timeLeft := 0 }])
    (ht : getProp st.timers r = some h)
    (hs : getProp st.roomUsers r = some (RoomVal.session i))
    (hlt : i + 1 < st.questions.length) :
    elapseSecond st =
      ({ st with
          roomUsers := setProp st.roomUsers r (RoomVal.session (i + 1))
          intervals := [{ handle := st.nextHandle, roomId := r, timeLeft := 6 }]
          timers := setProp st.timers r st.nextHandle
          nextHandle := st.nextHandle + 1 },
       [Msg.toRoom (some r) (Event.nextQuestion (i + 1)), Msg.toRoom (some r) Event.quizStarted]) := by
  rw [elapseSecond_single st h r 0 hiv]
  have hlt2 : (i : Int) < (st.questions.length : Int) - 1 := by omega
  have hread := (roomUsersRead_eq_session st.roomUsers r i).mpr hs
  simp [intervalCallback, hiv, ht, clearInterval, nextQuestion, hread, hlt2, startQuizTimer,
    roomUsersWrite_session]

theorem elapseSecond_end (st : State) (h : Nat) (r : String) (i : Nat)
    (hiv : st.intervals = [{ handle := h, roomId := r, timeLeft := 0 }])
    (ht : getProp st.timers r = some h)
    (hs : getProp st.roomUsers r = some (RoomVal.session i))
    (hlt : ¬ i + 1 < st.questions.length) :
    elapseSecond st = ({ st with intervals := [] }, [Msg.toRoom (some r) Event.quizEnded]) := by
  rw [elapseSecond_single st h r 0 hiv]
  have hlt2 : ¬ (i : Int) < (st.questions.length : Int) - 1 := by omega
  have hread := (roomUsersRead_eq_session st.roomUsers r i).mpr hs
  simp [intervalCallback, hiv, ht, clearInterval, nextQuestion, hread, hlt2]

theorem elapse_round_advance (st : State) (h : Nat) (r : String) (i : Nat)
    (hiv : st.intervals = [{ handle := h, roomId := r, timeLeft := 6 }])
    (ht : getProp st.timers r = some h)
    (hs : getProp st.roomUsers r = some (RoomVal.session i))
    (hlt : i + 1 < st.questions.length) :
    elapse st 7 =
      ({ st with
          roomUsers := setProp st.roomUsers r (RoomVal.session (i + 1))
          intervals := [{ handle := st.nextHandle, roomId := r, timeLeft := 6 }]
          timers := setProp st.timers r st.nextHandle
          nextHandle := st.nextHandle + 1 },
       countdownMsgs r 6 ++
         [Msg.toRoom (some r) (Event.nextQuestion (i + 1)), Msg.toRoom (some r) Event.quizStarted]) := by
  rw [show (7 : Nat) = 6 + 1 from rfl, elapse_add, elapse_countdown 6 st h r hiv]
  simp only [elapse]
  rw [elapseSecond_advance { st with intervals := [{ handle := h, roomId := r, timeLeft := 0 }] }
    h r i rfl ht hs hlt]
  simp

theorem elapse_round_end (st : State) (h : Nat) (r : String) (i : Nat)
    (hiv : st.intervals = [{ handle := h, roomId := r, timeLeft := 6 }])
    (ht : getProp st.timers r = some h)
    (hs : getProp st.roomUsers r = some (RoomVal.session i))
    (hlt : ¬ i + 1 < st.questions.length) :
    elapse st 7 = ({ st with intervals := [] },
      countdownMsgs r 6 ++ [Msg.toRoom (some r) Event.quizEnded]) := by
  rw [show (7 : Nat) = 6 + 1 from rfl, elapse_add, elapse_countdown 6 st h r hiv]
  simp only [elapse]
  rw [elapseSecond_end { st with intervals := [{ handle := h, roomId := r, timeLeft := 0 }] }
    h r i rfl ht hs hlt]
  simp

theorem filter_isAdvance_countdownMsgs (r : String) (t : Nat) :
    (countdownMsgs r t).filter Msg.isAdvance = [] := by
  induction t with
  | zero => rfl
  | succ t ih => simp [countdownMsgs, Msg.isAdvance, ih]

theorem elapse_progress (r : String) (k : Nat) : ∀ (st : State) (h i : Nat),
    st.intervals = [{ handle := h, roomId := r, timeLeft := 6 }] →
    getProp st.timers r = some h →
    getProp st.roomUsers r = some (RoomVal.session i) →
    i + k < st.questions.length →
    (∃ h2, (elapse st (7 * k)).1.intervals = [{ handle := h2, roomId := r, timeLeft := 6 }]
        ∧ getProp (elapse st (7 * k)).1.timers r = some h2)
    ∧ getProp (elapse st (7 * k)).1.roomUsers r = some (RoomVal.session (i + k))
    ∧ (elapse st (7 * k)).1.questions = st.questions
    ∧ (elapse st (7 * k)).2.filter Msg.isAdvance
        = (List.range k).map (fun j => Msg.toRoom (some r) (Event.nextQuestion (i + 1 + j))) := by
  induction k with
  | zero =>
    intro st h i hiv ht hs _
    simp [elapse, hiv, ht, hs]
  | succ k ih =>
    intro st h i hiv ht hs hlen
    obtain ⟨⟨h2, hiv2, ht2⟩, hs2, hq2, hf2⟩ := ih st h i hiv ht hs (by omega)
    have hlt : i + k + 1 < (elapse st (7 * k)).1.questions.length := by rw [hq2]; omega
    rw [show 7 * (k + 1) = 7 * k + 7 by ring, elapse_add,
      elapse_round_advance (elapse st (7 * k)).1 h2 r (i + k) hiv2 ht2 hs2 hlt]
    refine ⟨⟨(elapse st (7 * k)).1.nextHandle, rfl, by simp [getProp_setProp]⟩, ?_, hq2, ?_⟩
    · simp [getProp_setProp, Nat.add_assoc]
    · simp only [List.filter_append, filter_isAdvance_countdownMsgs, hf2, List.range_succ,
        List.map_append]
      simp [Msg.isAdvance, Nat.add_assoc, Nat.add_comm]

theorem elapse_finish (r : String) (n : Nat) (st : State) (h : Nat)
    (hiv : st.intervals = [{ handle := h, roomId := r, timeLeft := 6 }])
    (ht : getProp st.timers r = some h)
    (hs : getProp st.roomUsers r = some (RoomVal.session 0))
    (hn : 1 ≤ n) (hlen : st.questions.length = n) :
    (elapse st (7 * n)).1.intervals = []
    ∧ (elapse st (7 * n)).2.filter Msg.isAdvance
        = (List.range (n - 1)).map (fun j => Msg.toRoom (some r) (Event.nextQuestion (j + 1)))
          ++ [Msg.toRoom (some r) Event.quizEnded] := by
  obtain ⟨⟨h2, hiv2, ht2⟩, hs2, hq2, hf2⟩ := elapse_progress r (n - 1) st h 0 hiv ht hs (by omega)
  have hlt : ¬ 0 + (n - 1) + 1 < (elapse st (7 * (n - 1))).1.questions.length := by
    rw [hq2]; omega
  rw [show 7 * n = 7 * (n - 1) + 7 by omega, elapse_add,
    elapse_round_end (elapse st (7 * (n - 1))).1 h2 r (0 + (n - 1)) hiv2 ht2 hs2 hlt]
  refine ⟨rfl, ?_⟩
  simp only [List.filter_append, filter_isAdvance_countdownMsgs, hf2]
  simp [Msg.isAdvance, Nat.add_comm]

theorem startQuiz_running (st : State) (socketId roomId : String)
    (hroom : roomId ∈ st.createdRooms) (hidle : st.intervals = []) :
    (startQuiz st socketId roomId).1.intervals
        = [{ handle := st.nextHandle, roomId := roomId, timeLeft := 6 }]
    ∧ getProp (startQuiz st socketId roomId).1.timers roomId = some st.nextHandle
    ∧ getProp (startQuiz st socketId roomId).1.roomUsers roomId = some (RoomVal.session 0)
    ∧ (startQuiz st socketId roomId).1.questions = st.questions := by
  simp [startQuiz, hroom, startQuizTimer, hidle, getProp_setProp, roomUsersWrite_session]

/-! ## Answer evaluation -/

/-- C1: when the first loaded question with id `q` has options `opts`, the first
answer key with id `q` holds an index `i` valid in `opts`, and the room id is
defined, `handleSubmitAnswer` changes no state and emits exactly one message,
`answerResult {success: true, correct: c}` to the room, where `c` is true if
and only if `opts[i]` equals the selected option text. -/
theorem handleSubmitAnswer_correct_iff (st : State) (socketId q s roomId : String)
    (question : Question) (key : AnswerKey) (i : Nat)
    (hq : st.questions.find? (fun x => some x._id == some q) = some question)
    (ha : st.answers.find? (fun a => some a._id == some q) = some key)
    (hi : key.answer = some i) (hlt : i < question.options.length) :
    ∃ c : Bool,
      handleSubmitAnswer st socketId
          (some { questionId := some q, selectedOption := some s, roomId := some roomId })
        = (st, [Msg.toRoom (some roomId) (Event.answerResult true (some c) none)])
      ∧ (c = true ↔ question.options.get ⟨i, hlt⟩ = s) := by
  refine ⟨decide (question.options.get ⟨i, hlt⟩ = s), ?_, by simp⟩
  have hopt : optionAt question.options key.answer = some (question.options.get ⟨i, hlt⟩) := by
    rw [hi]
    simp [optionAt, List.get?_eq_get hlt]
  simp only [handleSubmitAnswer, hq, ha, hopt]
  simp

/-- C1, worked example: with options `A`, `B`, `C` and key index `1`, the text
`B` is reported correct. -/
theorem handleSubmitAnswer_correct_iff_witness :
    ∃ c : Bool,
      handleSubmitAnswer exampleCatalog "s1"
          (some { questionId := some "q1", selectedOption := some "B", roomId := some "room" })
        = (exampleCatalog, [Msg.toRoom (some "room") (Event.answerResult true (some c) none)])
      ∧ (c = true ↔ ["A", "B", "C"].get ⟨1, by decide⟩ = "B") :=
  handleSubmitAnswer_correct_iff exampleCatalog "s1" "q1" "B" "room"
    { _id := "q1", question := "?", options := ["A", "B", "C"] }
    { _id := "q1", answer := some 1 } 1 (by decide) (by decide) rfl (by decide)

/-- The worked example evaluated: `B` is correct, `A` is not, and an unknown id
is answered with `Question not found` to the caller. -/
theorem handleSubmitAnswer_example :
    handleSubmitAnswer exampleCatalog "s1"
        (some { questionId := some "q1", selectedOption := some "B", roomId := some "room" })
      = (exampleCatalog, [Msg.toRoom (some "room") (Event.answerResult true (some true) none)])
    ∧ handleSubmitAnswer exampleCatalog "s1"
        (some { questionId := some "q1", selectedOption := some "A", roomId := some "room" })
      = (exampleCatalog, [Msg.toRoom (some "room") (Event.answerResult true (some false) none)])
    ∧ handleSubmitAnswer exampleCatalog "s1"
        (some { questionId := some "bad-id", selectedOption := some "A", roomId := some "room" })
      = (exampleCatalog,
          [Msg.toSocket "s1" (Event.answerResult false none (some "Question not found"))]) := by
  refine ⟨?_, ?_, ?_⟩ <;> decide

/-! ## Unknown rooms -/

/-- C3: for a room id that is not in `createdRooms`, `joinRoom` and `startQuiz`
both leave the whole state unchanged (so no timer is started) and emit exactly
one message, `error` with the text `Room not found`, to the calling socket. -/
theorem joinRoom_startQuiz_room_not_found (st : State) (socketId roomId : String)
    (h : roomId ∉ st.createdRooms) :
    joinRoom st socketId roomId = (st, [Msg.toSocket socketId (Event.error "Room not found")])
    ∧ startQuiz st socketId roomId
        = (st, [Msg.toSocket socketId (Event.error "Room not found")]) := by
  simp [joinRoom, startQuiz, h]

/-- C3 at a concrete input: room `b` when only room `a` was created. -/
theorem joinRoom_startQuiz_room_not_found_witness :
    joinRoom (createRoom State.initial "s0" "a").1 "s1" "b"
      = ((createRoom State.initial "s0" "a").1,
          [Msg.toSocket "s1" (Event.error "Room not found")])
    ∧ startQuiz (createRoom State.initial "s0" "a").1 "s1" "b"
      = ((createRoom State.initial "s0" "a").1,
          [Msg.toSocket "s1" (Event.error "Room not found")]) :=
  joinRoom_startQuiz_room_not_found (createRoom State.initial "s0" "a").1 "s1" "b" (by decide)

/-! ## Submissions without a room id -/

/-- C6 as stated fails: with an `undefined` room id and a question id that
matches no loaded question, the caller is told `Question not found`, not the
room-id-missing message. -/
theorem submit_without_room_unknown_question_counterexample :
    handleSubmitAnswer exampleCatalog "s1"
        (some { questionId := some "bad-id", selectedOption := some "A", roomId := none })
      = (exampleCatalog,
          [Msg.toSocket "s1" (Event.answerResult false none (some "Question not found"))])
    ∧ handleSubmitAnswer exampleCatalog "s1"
        (some { questionId := some "bad-id", selectedOption := some "A", roomId := none })
      ≠ (exampleCatalog,
          [Msg.toSocket "s1" (Event.answerResult false none (some "Team ID not provided"))]) := by
  constructor <;> decide

/-- C6 amended: for a submission whose room id is `undefined`, the state is
unchanged and exactly one message goes to the caller: `answerResult
{success: false, message: 'Team ID not provided'}` when the question id matches
a loaded question, and `answerResult {success: false, message: 'Question not
found'}` when it matches none (the question check comes first). -/
theorem handleSubmitAnswer_roomId_missing (st : State) (socketId : String) (d : SubmitData)
    (h : d.roomId = none) :
    handleSubmitAnswer st socketId (some d)
      = (st, [Msg.toSocket socketId (Event.answerResult false none
            (some (if (st.questions.find? (fun q => some q._id == d.questionId)).isSome
                    then "Team ID not provided" else "Question not found")))]) := by
  simp only [handleSubmitAnswer]
  split
  · next hq => rw [hq]; rfl
  · next question hq => rw [hq, h]; rfl

/-- C6 amended, at a concrete input: a matching question id without room id. -/
theorem handleSubmitAnswer_roomId_missing_witness :
    handleSubmitAnswer exampleCatalog "s1"
        (some { questionId := some "q1", selectedOption := some "B", roomId := none })
      = (exampleCatalog,
          [Msg.toSocket "s1" (Event.answerResult false none
            (some (if (exampleCatalog.questions.find? (fun q => some q._id == some "q1")).isSome
                    then "Team ID not provided" else "Question not found")))]) :=
  handleSubmitAnswer_roomId_missing exampleCatalog "s1"
    { questionId := some "q1", selectedOption := some "B", roomId := none } rfl

/-! ## Advancing a room without a session -/

/-- C7 as stated fails: advancing a room that has no entry in `roomUsers`
broadcasts `quizEnded` to it. -/
theorem nextQuestion_absent_room_counterexample :
    (nextQuestion State.initial "r").2 = [Msg.toRoom (some "r") Event.quizEnded]
    ∧ (nextQuestion State.initial "r").2 ≠ [] := by
  constructor <;> decide

/-- C7 amended: when `roomUsers` holds no session for the room (no entry, a
number or `NaN`), `nextQuestion` leaves the whole state unchanged, schedules no
timer, and broadcasts exactly `quizEnded` to the room. -/
theorem nextQuestion_no_session (st : State) (roomId : String)
    (h : ∀ i, getProp st.roomUsers roomId ≠ some (RoomVal.session i)) :
    nextQuestion st roomId = (st, [Msg.toRoom (some roomId) Event.quizEnded]) := by
  unfold nextQuestion
  split
  · next i hi => exact absurd ((roomUsersRead_eq_session _ _ _).mp hi) (h i)
  · rfl

/-- C7 amended, at a concrete input: a room whose entry is the count `0`. -/
theorem nextQuestion_no_session_witness :
    nextQuestion (createRoom State.initial "s0" "r").1 "r"
      = ((createRoom State.initial "s0" "r").1, [Msg.toRoom (some "r") Event.quizEnded]) :=
  nextQuestion_no_session (createRoom State.initial "s0" "r").1 "r"
    (fun i => by
      have h0 : getProp (createRoom State.initial "s0" "r").1.roomUsers "r"
          = some (RoomVal.num 0) := by decide
      rw [h0]
      simp)

/-! ## Starting a quiz twice -/

/-- C4 does not hold of the code: after `startQuiz` twice for room `r` both
intervals are live (the first was not cleared, and its handle is lost from
`timers`), `quizStarted` was broadcast twice, each elapsed second produces two
`quizTimerUpdate` broadcasts, and after the countdown the interval that is no
longer in `timers` stays live and advances the room every second (`quizEnded`
three times within nine seconds, and the interval is still live). -/
theorem doubleStart_two_live_timers :
    (run State.initial doubleStart).1.intervals
      = [{ handle := 0, roomId := "r", timeLeft := 6 }, { handle := 1, roomId := "r", timeLeft := 6 }]
    ∧ (run State.initial doubleStart).1.timers = [("r", 1)]
    ∧ (run State.initial doubleStart).2
      = [Msg.toRoom (some "r") (Event.UserJoined "r" (RoomVal.num 0)),
         Msg.toRoom (some "r") Event.quizStarted, Msg.toRoom (some "r") Event.quizStarted]
    ∧ (elapseSecond (run State.initial doubleStart).1).2
      = [Msg.toRoom (some "r") (Event.quizTimerUpdate 5),
         Msg.toRoom (some "r") (Event.quizTimerUpdate 5)]
    ∧ (elapse (run State.initial doubleStart).1 9).2.filter
          (fun m => m == Msg.toRoom (some "r") Event.quizEnded)
      = [Msg.toRoom (some "r") Event.quizEnded, Msg.toRoom (some "r") Event.quizEnded,
         Msg.toRoom (some "r") Event.quizEnded]
    ∧ (elapse (run State.initial doubleStart).1 9).1.intervals
      = [{ handle := 0, roomId := "r", timeLeft := 0 }] := by
  refine ⟨?_, ?_, ?_, ?_, ?_, ?_⟩ <;> decide

/-! ## Joining and leaving -/

/-- C5 does not hold of the code: after one join and the disconnect of that
same connection (N = M = 1) the count of room `r` is still `1` and its entry is
still there, whether `socket.rooms` is already empty when the handler runs or
still holds the socket's own room and `r`: the handler looks for the room
equal to `socket.id`, never for `r`. -/
theorem joinThenLeave_count_unchanged :
    (run State.initial (joinThenLeave [])).1.roomUsers = [("r", RoomVal.num 1)]
    ∧ (run State.initial (joinThenLeave ["s1", "r"])).1.roomUsers = [("r", RoomVal.num 1)]
    ∧ (run State.initial (joinThenLeave [])).2
      = [Msg.toRoom (some "r") (Event.UserJoined "r" (RoomVal.num 0)),
         Msg.toRoom (some "r") (Event.UserJoined "r" (RoomVal.num 1))] := by
  refine ⟨?_, ?_, ?_⟩ <;> decide

/-- The `disconnect` handler reads and writes one key of `roomUsers` only, the
one `socket.rooms.find(room => room == socket.id)` converts to: the entry of
every other room is left as it was. -/
theorem disconnect_other_room (st : State) (socketId : String) (rooms : List String)
    (roomId : String) (h : propKey (rooms.find? (fun room => room == socketId)) ≠ roomId) :
    getProp (disconnect st socketId rooms).1.roomUsers roomId = getProp st.roomUsers roomId := by
  simp only [disconnect]
  split
  · split
    · simp only [getProp_roomUsersDelete_of_ne _ _ _ h, getProp_roomUsersWrite_of_ne _ _ _ _ h]
    · simp only [getProp_roomUsersWrite_of_ne _ _ _ _ h]
  · rfl

/-! ## The member count across `startQuiz` -/

/-- C10 does not hold of the code: `startQuiz` overwrites the count `1` of room
`r` with the session object, and the `joinRoom` that follows increments that
object, which stores `NaN` and broadcasts `UserJoined` with `joinedUsers: NaN`. -/
theorem joinAfterStart_count_nan :
    (run State.initial (joinAfterStart.take 2)).1.roomUsers = [("r", RoomVal.num 1)]
    ∧ (run State.initial (joinAfterStart.take 3)).1.roomUsers = [("r", RoomVal.session 0)]
    ∧ (run State.initial joinAfterStart).1.roomUsers = [("r", RoomVal.nan)]
    ∧ (run State.initial joinAfterStart).2.getLast?
      = some (Msg.toRoom (some "r") (Event.UserJoined "r" RoomVal.nan)) := by
  refine ⟨?_, ?_, ?_, ?_⟩ <;> decide

/-! ## Quiz progression -/

/-- C2: from a state with `n >= 1` loaded questions and no live timer,
`startQuiz` on a created room followed by countdown expirations (seven timer
runs each) behaves as follows.  After `k < n` expirations the advance
broadcasts so far are `nextQuestion 1, ..., nextQuestion k` in that order, the
session index is `k`, and one timer is live.  After the `n`-th expiration the
advance broadcasts are `nextQuestion 1, ..., nextQuestion (n-1)` followed by
`quizEnded`, no timer is live, and any further lapse of time emits nothing. -/
theorem startQuiz_progression (st : State) (socketId roomId : String) (n : Nat)
    (hn : 1 ≤ n) (hlen : st.questions.length = n)
    (hroom : roomId ∈ st.createdRooms) (hidle : st.intervals = []) :
    (∀ k, k < n →
        (elapse (startQuiz st socketId roomId).1 (7 * k)).2.filter Msg.isAdvance
          = (List.range k).map (fun j => Msg.toRoom (some roomId) (Event.nextQuestion (j + 1)))
        ∧ getProp (elapse (startQuiz st socketId roomId).1 (7 * k)).1.roomUsers roomId
          = some (RoomVal.session k)
        ∧ (elapse (startQuiz st socketId roomId).1 (7 * k)).1.intervals.length = 1)
    ∧ (elapse (startQuiz st socketId roomId).1 (7 * n)).2.filter Msg.isAdvance
        = (List.range (n - 1)).map (fun j => Msg.toRoom (some roomId) (Event.nextQuestion (j + 1)))
          ++ [Msg.toRoom (some roomId) Event.quizEnded]
    ∧ (elapse (startQuiz st socketId roomId).1 (7 * n)).1.intervals = []
    ∧ ∀ j, (elapse (elapse (startQuiz st socketId roomId).1 (7 * n)).1 j).2 = [] := by
  obtain ⟨hiv, ht, hs, hq⟩ := startQuiz_running st socketId roomId hroom hidle
  have hlen1 : (startQuiz st socketId roomId).1.questions.length = n := by rw [hq, hlen]
  obtain ⟨hend, hmsgs⟩ := elapse_finish roomId n _ _ hiv ht hs hn hlen1
  refine ⟨?_, hmsgs, hend, ?_⟩
  · intro k hk
    obtain ⟨⟨h2, hiv2, _⟩, hs2, _, hf2⟩ :=
      elapse_progress roomId k _ _ 0 hiv ht hs (by omega)
    refine ⟨?_, ?_, ?_⟩
    · rw [hf2]
      apply List.map_congr_left
      intro j _
      rw [Nat.add_comm 0 1, Nat.add_comm 1 j]
    · rw [hs2, Nat.zero_add]
    · rw [hiv2]; rfl
  · intro j
    rw [elapse_idle j _ hend]

/-- C2 at `n = 3`: the index goes `0, 1, 2`, then `quizEnded`, and there is no
fourth `nextQuestion`. -/
theorem startQuiz_progression_witness :
    (∀ k, k < 3 →
        (elapse (startQuiz threeQuestions "s1" "r").1 (7 * k)).2.filter Msg.isAdvance
          = (List.range k).map (fun j => Msg.toRoom (some "r") (Event.nextQuestion (j + 1)))
        ∧ getProp (elapse (startQuiz threeQuestions "s1" "r").1 (7 * k)).1.roomUsers "r"
          = some (RoomVal.session k)
        ∧ (elapse (startQuiz threeQuestions "s1" "r").1 (7 * k)).1.intervals.length = 1)
    ∧ (elapse (startQuiz threeQuestions "s1" "r").1 (7 * 3)).2.filter Msg.isAdvance
        = (List.range (3 - 1)).map (fun j => Msg.toRoom (some "r") (Event.nextQuestion (j + 1)))
          ++ [Msg.toRoom (some "r") Event.quizEnded]
    ∧ (elapse (startQuiz threeQuestions "s1" "r").1 (7 * 3)).1.intervals = []
    ∧ ∀ j, (elapse (elapse (startQuiz threeQuestions "s1" "r").1 (7 * 3)).1 j).2 = [] :=
  startQuiz_progression threeQuestions "s1" "r" 3 (by decide) rfl (by decide) rfl

/-- The run of C2 at `n = 3` evaluated: the advance broadcasts of the first 21
seconds, and of the 100 seconds after them. -/
theorem threeQuestions_progression_example :
    (elapse (startQuiz threeQuestions "s1" "r").1 21).2.filter Msg.isAdvance
      = [Msg.toRoom (some "r") (Event.nextQuestion 1), Msg.toRoom (some "r") (Event.nextQuestion 2),
         Msg.toRoom (some "r") Event.quizEnded]
    ∧ (elapse (elapse (startQuiz threeQuestions "s1" "r").1 21).1 100).2 = [] := by
  constructor <;> decide

/-! ## Timers of a room that empties -/

/-- C8 as stated fails.  In the run `entryDiscarded` the `disconnect` handler
discards the entry of the room while its countdown is live: afterwards the
room has no entry in `roomUsers`, its interval is still live, and the next
second broadcasts `quizTimerUpdate` to it.  In the run `lastMemberLeaves` the
only member of a room with a running quiz disconnects and the countdown goes
on as well.  Hence the invariant "no entry, no live timer" is false. -/
theorem disconnect_timer_live_counterexample :
    getProp (run State.initial entryDiscarded).1.roomUsers "undefined" = none
    ∧ (run State.initial entryDiscarded).1.intervals
      = [{ handle := 0, roomId := "undefined", timeLeft := 6 }]
    ∧ (elapseSecond (run State.initial entryDiscarded).1).2
      = [Msg.toRoom (some "undefined") (Event.quizTimerUpdate 5)]
    ∧ (run State.initial lastMemberLeaves).1.intervals
      = [{ handle := 0, roomId := "r", timeLeft := 6 }]
    ∧ (elapseSecond (run State.initial lastMemberLeaves).1).2
      = [Msg.toRoom (some "r") (Event.quizTimerUpdate 5)]
    ∧ ¬ (∀ st, Reachable st → ∀ room, getProp st.roomUsers room = none →
          ∀ iv ∈ st.intervals, iv.roomId ≠ room) := by
  refine ⟨by decide, by decide, by decide, by decide, by decide, ?_⟩
  intro hall
  exact hall (run State.initial entryDiscarded).1 ⟨entryDiscarded, rfl⟩ "undefined" (by decide)
    { handle := 0, roomId := "undefined", timeLeft := 6 } (by decide) rfl

/-- C8 amended: the `disconnect` handler cancels no countdown.  Whatever it
does to `roomUsers` (also when it discards the entry of the room), the live
intervals and the `timers` table are the same before and after, and so are the
catalog and `createdRooms`. -/
theorem disconnect_keeps_timers (st : State) (socketId : String) (rooms : List String) :
    (disconnect st socketId rooms).1.intervals = st.intervals
    ∧ (disconnect st socketId rooms).1.timers = st.timers
    ∧ (disconnect st socketId rooms).1.nextHandle = st.nextHandle
    ∧ (disconnect st socketId rooms).1.createdRooms = st.createdRooms
    ∧ (disconnect st socketId rooms).1.questions = st.questions := by
  simp only [disconnect]
  split
  · split <;> exact ⟨rfl, rfl, rfl, rfl, rfl⟩
  · exact ⟨rfl, rfl, rfl, rfl, rfl⟩

/-! ## The range of the question index -/

/-- C9 as stated fails.  A quiz started with an empty catalog has a session
with index `0` while `questions.length` is `0`; and after a reload that brings
a shorter catalog a session has index `1` while `questions.length` is `1`.
Hence the invariant is false on reachable states. -/
theorem index_in_range_counterexample :
    getProp (run State.initial emptyCatalogStart).1.roomUsers "r" = some (RoomVal.session 0)
    ∧ (run State.initial emptyCatalogStart).1.questions.length = 0
    ∧ getProp (run State.initial reloadMidQuiz).1.roomUsers "r" = some (RoomVal.session 1)
    ∧ (run State.initial reloadMidQuiz).1.questions.length = 1
    ∧ ¬ (∀ st, Reachable st → IndexInRange st) := by
  refine ⟨by decide, by decide, by decide, by decide, ?_⟩
  intro hall
  have h := hall (run State.initial emptyCatalogStart).1 ⟨emptyCatalogStart, rfl⟩ "r" 0 (by decide)
  exact absurd h (by decide)

/-- C9 amended: start from the initial state, or from any state in which every
session index is below `questions.length`.  After any sequence of createRoom,
joinRoom, startQuiz, joinQuiz, submitAnswer, disconnect, adapter and timer
events in which no `startQuiz` of a created room is processed while the
catalog is empty, and no reload whose question fetch succeeds brings a catalog
with no more questions than the index of some session, every room that has a
quiz session satisfies `currentQuestionIndex < questions.length` (the index is
a natural number, so it is at least `0`).  Failed reloads are free, and so are
reloads to a catalog at least as long as the current one
(`keepsIndexInRange_of_not_shorter`). -/
theorem session_index_in_range (st : State) (actions : List Action)
    (hin : IndexInRange st) (hok : RunKeepsIndexInRange st actions)
    (roomId : String) (i : Nat)
    (hs : getProp (run st actions).1.roomUsers roomId = some (RoomVal.session i)) :
    i < (run st actions).1.questions.length :=
  run_indexInRange actions st hin hok roomId i hs

/-- C9 amended, at a concrete input: the run `reloadsThatKeep` from the initial
state, with a reload of the same length, a failed reload and a reload to two
questions while the session index is `1`. -/
theorem session_index_in_range_witness :
    1 < (run State.initial reloadsThatKeep).1.questions.length :=
  session_index_in_range State.initial reloadsThatKeep
    (fun r i h => by simp [State.initial, getProp] at h)
    (by
      simp only [reloadsThatKeep, RunKeepsIndexInRange, Action.keepsIndexInRange, and_true,
        true_and]
      refine ⟨sessionsBelow_of_all _ _ (by decide), fun _ => by decide,
        sessionsBelow_of_all _ _ (by decide), sessionsBelow_of_all _ _ (by decide)⟩)
    "r" 1 (by decide)

/-- The run of the witness of C9 evaluated: the session index is `1` and the
catalog holds two questions at the end. -/
theorem reloadsThatKeep_example :
    getProp (run State.initial reloadsThatKeep).1.roomUsers "r" = some (RoomVal.session 1)
    ∧ (run State.initial reloadsThatKeep).1.questions.length = 2 := by
  constructor <;> decide

/-! ## Further supporting lemmas -/

theorem find_answer_isSome_congr (q : Option String) (a1 : List AnswerKey) :
    ∀ a2 : List AnswerKey, a1.map (fun a => a._id) = a2.map (fun a => a._id) →
      (a1.find? (fun a => some a._id == q)).isSome = (a2.find? (fun a => some a._id == q)).isSome := by
  induction a1 with
  | nil =>
    intro a2 h
    cases a2 with
    | nil => rfl
    | cons b rest => simp at h
  | cons a rest ih =>
    intro a2 h
    cases a2 with
    | nil => simp at h
    | cons b rest2 =>
      simp only [List.map_cons, List.cons.injEq] at h
      obtain ⟨hid, hrest⟩ := h
      simp only [List.find?_cons, hid]
      cases hb : (some b._id == q)
      · exact ih rest2 hrest
      · rfl

theorem setProp_setProp {β : Type} (obj : List (String × β)) (k : String) (v w : β) :
    setProp (setProp obj k v) k w = setProp obj k w := by
  induction obj with
  | nil => simp [setProp]
  | cons e rest ih =>
    obtain ⟨a, u⟩ := e
    by_cases h : a = k
    · simp [setProp, h]
    · simp [setProp, h, ih]

theorem setAdd_idem (s : List String) (x : String) : setAdd (setAdd s x) x = setAdd s x := by
  by_cases h : x ∈ s <;> simp [setAdd, h]

theorem count_setAdd (s : List String) (x : String) (hs : s.Nodup) :
    (setAdd s x).count x = 1 := by
  by_cases h : x ∈ s
  · simp only [setAdd, h, if_true]
    exact List.count_eq_one_of_mem hs h
  · simp [setAdd, h, List.count_eq_zero_of_not_mem h]

theorem truthy_zero : truthy (some (RoomVal.num 0)) = false := rfl

theorem socketJoin_idem (a : List (String × String)) (s r : String) :
    socketJoin (socketJoin a s r) s r = socketJoin a s r := by
  by_cases h : (s, r) ∈ a <;> simp [socketJoin, h]

theorem mem_socketJoin (a : List (String × String)) (s r : String) :
    (s, r) ∈ socketJoin a s r := by
  by_cases h : (s, r) ∈ a <;> simp [socketJoin, h]

theorem truthy_protoValue (obj : List (String × RoomVal)) :
    truthy (some (protoValue obj)) = true := by
  unfold protoValue
  split <;> rfl

theorem ne_proto_of_falsy (obj : List (String × RoomVal)) (k : String)
    (h : truthy (roomUsersRead obj k) = false) : k ≠ "__proto__" := by
  intro hk
  subst hk
  simp [roomUsersRead, truthy_protoValue] at h

theorem ne_proto_of_read_num (obj : List (String × RoomVal)) (k : String) (c : Int)
    (h : roomUsersRead obj k = some (RoomVal.num c)) : k ≠ "__proto__" := by
  intro hk
  subst hk
  simp only [roomUsersRead, if_true, protoValue, Option.some.injEq] at h
  split at h <;> simp at h

theorem roomUsersRead_setProp (obj : List (String × RoomVal)) (k : String) (v : RoomVal)
    (hk : k ≠ "__proto__") : roomUsersRead (setProp obj k v) k = some v := by
  simp [roomUsersRead, hk, getProp_setProp]

theorem createRoom_falsy (st : State) (socketId x : String)
    (ht : truthy (roomUsersRead st.roomUsers x) = false) :
    createRoom st socketId x
      = ({ st with createdRooms := setAdd st.createdRooms x
                   attached := socketJoin st.attached socketId x
                   roomUsers := setProp st.roomUsers x (RoomVal.num 0) },
         [Msg.toRoom (some x) (Event.UserJoined x (RoomVal.num 0))]) := by
  have hk := ne_proto_of_falsy st.roomUsers x ht
  simp [createRoom, ht, roomUsersWrite_of_ne _ _ _ hk, roomUsersRead_setProp _ _ _ hk,
    truthy_zero]

theorem createRoom_truthy (st : State) (socketId x : String) (v : RoomVal)
    (hg : roomUsersRead st.roomUsers x = some v) (ht : truthy (some v) = true) :
    createRoom st socketId x
      = ({ st with createdRooms := setAdd st.createdRooms x
                   attached := socketJoin st.attached socketId x },
         [Msg.toRoom (some x) (Event.UserJoined x v)]) := by
  simp [createRoom, hg, ht]

theorem joinRoom_created (st : State) (socketId roomId : String)
    (hroom : roomId ∈ st.createdRooms) (base : List (String × RoomVal))
    (hbase : base = if truthy (roomUsersRead st.roomUsers roomId) then st.roomUsers
      else roomUsersWrite st.roomUsers roomId (RoomVal.num 0)) :
    joinRoom st socketId roomId
      = ({ st with
            attached := socketJoin st.attached socketId roomId
            roomUsers := roomUsersWrite base roomId (increment (roomUsersRead base roomId)) },
         [Msg.toRoom (some roomId) (Event.UserJoined roomId
            (valueAfterWrite base roomId (increment (roomUsersRead base roomId))))]) := by
  subst hbase
  cases ht : truthy (roomUsersRead st.roomUsers roomId) <;> simp [joinRoom, hroom, ht]

theorem joinRoom_falsy (st : State) (socketId roomId : String)
    (hroom : roomId ∈ st.createdRooms)
    (ht : truthy (roomUsersRead st.roomUsers roomId) = false) :
    joinRoom st socketId roomId
      = ({ st with
            attached := socketJoin st.attached socketId roomId
            roomUsers := setProp st.roomUsers roomId (RoomVal.num 1) },
         [Msg.toRoom (some roomId) (Event.UserJoined roomId (RoomVal.num 1))]) := by
  have hk := ne_proto_of_falsy st.roomUsers roomId ht
  rw [joinRoom_created st socketId roomId hroom (setProp st.roomUsers roomId (RoomVal.num 0))
    (by simp [ht, roomUsersWrite_of_ne _ _ _ hk])]
  simp [roomUsersRead_setProp _ _ _ hk, increment, roomUsersWrite_of_ne _ _ _ hk,
    valueAfterWrite_of_ne _ _ _ hk, setProp_setProp]

theorem joinRoom_truthy (st : State) (socketId roomId : String) (v : RoomVal)
    (hroom : roomId ∈ st.createdRooms)
    (hg : roomUsersRead st.roomUsers roomId = some v) (ht : truthy (some v) = true)
    (hk : roomId ≠ "__proto__") :
    joinRoom st socketId roomId
      = ({ st with
            attached := socketJoin st.attached socketId roomId
            roomUsers := setProp st.roomUsers roomId (increment (some v)) },
         [Msg.toRoom (some roomId) (Event.UserJoined roomId (increment (some v)))]) := by
  rw [joinRoom_created st socketId roomId hroom st.roomUsers (by simp [hg, ht])]
  simp [hg, roomUsersWrite_of_ne _ _ _ hk, valueAfterWrite_of_ne _ _ _ hk]

theorem run_append (as bs : List Action) : ∀ st : State,
    run st (as ++ bs) = ((run (run st as).1 bs).1, (run st as).2 ++ (run (run st as).1 bs).2) := by
  induction as with
  | nil => intro st; simp [run]
  | cons a rest ih =>
    intro st
    simp only [List.cons_append, run, List.append_eq, ih, List.append_assoc]

theorem find_fresh_append (old : List Interval) (x : Interval) (h : Nat)
    (hfresh : ∀ iv ∈ old, iv.handle ≠ h) (hx : x.handle = h) :
    (old ++ [x]).find? (fun iv => iv.handle == h) = some x := by
  have hnone : old.find? (fun iv => iv.handle == h) = none := by
    rw [List.find?_eq_none]
    intro iv hiv
    simpa using hfresh iv hiv
  simp [List.find?_append, hnone, hx]

theorem map_fresh_append (old : List Interval) (x : Interval) (f : Interval → Interval) (h : Nat)
    (hfresh : ∀ iv ∈ old, iv.handle ≠ h) (hx : x.handle = h) :
    (old ++ [x]).map (fun j => if j.handle == h then f j else j) = old ++ [f x] := by
  induction old with
  | nil => simp [hx]
  | cons a rest ih =>
    have ha : a.handle ≠ h := hfresh a (List.mem_cons_self _ _)
    have hrest := ih (fun iv hiv => hfresh iv (List.mem_cons_of_mem _ hiv))
    simp only [List.cons_append, List.map_cons, hrest]
    simp [ha]

theorem filter_fresh_append (old : List Interval) (x : Interval) (h : Nat)
    (hfresh : ∀ iv ∈ old, iv.handle ≠ h) (hx : x.handle = h) :
    (old ++ [x]).filter (fun iv => iv.handle != h) = old := by
  have hold : old.filter (fun iv => iv.handle != h) = old := by
    rw [List.filter_eq_self]
    intro iv hiv
    simpa using hfresh iv hiv
  simp [List.filter_append, hold, hx]

theorem intervalCallback_counting (st : State) (old : List Interval) (h : Nat) (r : String)
    (t : Nat) (hiv : st.intervals = old ++ [{ handle := h, roomId := r, timeLeft := t + 1 }])
    (hfresh : ∀ iv ∈ old, iv.handle ≠ h) :
    intervalCallback st h
      = ({ st with intervals := old ++ [{ handle := h, roomId := r, timeLeft := t }] },
         [Msg.toRoom (some r) (Event.quizTimerUpdate t)]) := by
  unfold intervalCallback
  rw [hiv, find_fresh_append old { handle := h, roomId := r, timeLeft := t + 1 } h hfresh rfl]
  simp only [Nat.succ_pos, if_true, gt_iff_lt, Nat.add_sub_cancel]
  rw [map_fresh_append old { handle := h, roomId := r, timeLeft := t + 1 }
    (fun j => { j with timeLeft := t }) h hfresh rfl]

theorem intervalCallback_expire (st : State) (old : List Interval) (h : Nat) (r : String)
    (hiv : st.intervals = old ++ [{ handle := h, roomId := r, timeLeft := 0 }])
    (hfresh : ∀ iv ∈ old, iv.handle ≠ h) (ht : getProp st.timers r = some h) :
    intervalCallback st h = nextQuestion { st with intervals := old } r := by
  unfold intervalCallback
  rw [hiv, find_fresh_append old { handle := h, roomId := r, timeLeft := 0 } h hfresh rfl]
  simp only [gt_iff_lt, Nat.lt_irrefl, if_false, ht, clearInterval, hiv]
  rw [filter_fresh_append old { handle := h, roomId := r, timeLeft := 0 } h hfresh rfl]

theorem intervalCallback_cleared (st : State) (h : Nat)
    (hdead : ∀ iv ∈ st.intervals, iv.handle ≠ h) : intervalCallback st h = (st, []) := by
  have hnone : st.intervals.find? (fun iv => iv.handle == h) = none := by
    rw [List.find?_eq_none]
    intro iv hiv
    simpa using hdead iv hiv
  simp only [intervalCallback, hnone]

theorem run_ticks_cleared (h : Nat) (k : Nat) (st : State)
    (hdead : ∀ iv ∈ st.intervals, iv.handle ≠ h) :
    run st (List.replicate k (Action.tick h)) = (st, []) := by
  induction k with
  | zero => rfl
  | succ k ih =>
    simp only [List.replicate_succ, run, step, intervalCallback_cleared st h hdead, ih,
      List.append_nil]

theorem run_ticks_countdown (old : List Interval) (h : Nat) (r : String)
    (hfresh : ∀ iv ∈ old, iv.handle ≠ h) (t : Nat) : ∀ st : State,
    st.intervals = old ++ [{ handle := h, roomId := r, timeLeft := t }] →
    run st (List.replicate t (Action.tick h))
      = ({ st with intervals := old ++ [{ handle := h, roomId := r, timeLeft := 0 }] },
         countdownMsgs r t) := by
  induction t with
  | zero => intro st hiv; simp [run, countdownMsgs, ← hiv]
  | succ t ih =>
    intro st hiv
    simp only [List.replicate_succ, run, step, intervalCallback_counting st old h r t hiv hfresh]
    rw [ih _ rfl]
    simp [countdownMsgs]

theorem nextQuestion_intervals (st : State) (roomId : String) :
    (nextQuestion st roomId).1.intervals = st.intervals
    ∨ (nextQuestion st roomId).1.intervals
        = st.intervals ++ [{ handle := st.nextHandle, roomId := roomId, timeLeft := 6 }] := by
  unfold nextQuestion
  repeat' split
  · exact Or.inr rfl
  · exact Or.inl rfl
  · exact Or.inl rfl

theorem countdownMsgs_six (r : String) :
    countdownMsgs r 6
      = [Msg.toRoom (some r) (Event.quizTimerUpdate 5), Msg.toRoom (some r) (Event.quizTimerUpdate 4),
         Msg.toRoom (some r) (Event.quizTimerUpdate 3), Msg.toRoom (some r) (Event.quizTimerUpdate 2),
         Msg.toRoom (some r) (Event.quizTimerUpdate 1), Msg.toRoom (some r) (Event.quizTimerUpdate 0)] :=
  rfl

theorem count_quizStarted_countdownMsgs (r : String) (t : Nat) :
    (countdownMsgs r t).count (Msg.toRoom (some r) Event.quizStarted) = 0 := by
  induction t with
  | zero => rfl
  | succ t ih =>
    rw [countdownMsgs, List.count_cons_of_ne (by simp), ih]

theorem elapse_progress_started (r : String) (k : Nat) : ∀ (st : State) (h i : Nat),
    st.intervals = [{ handle := h, roomId := r, timeLeft := 6 }] →
    getProp st.timers r = some h →
    getProp st.roomUsers r = some (RoomVal.session i) →
    i + k < st.questions.length →
    (elapse st (7 * k)).2.count (Msg.toRoom (some r) Event.quizStarted) = k := by
  induction k with
  | zero => intro st h i _ _ _ _; simp [elapse]
  | succ k ih =>
    intro st h i hiv ht hs hlen
    obtain ⟨⟨h2, hiv2, ht2⟩, hs2, hq2, _⟩ := elapse_progress r k st h i hiv ht hs (by omega)
    have hlt : i + k + 1 < (elapse st (7 * k)).1.questions.length := by rw [hq2]; omega
    rw [show 7 * (k + 1) = 7 * k + 7 by ring, elapse_add,
      elapse_round_advance (elapse st (7 * k)).1 h2 r (i + k) hiv2 ht2 hs2 hlt]
    simp only [List.count_append, ih st h i hiv ht hs (by omega),
      count_quizStarted_countdownMsgs]
    simp

theorem elapse_finish_started (r : String) (n : Nat) (st : State) (h : Nat)
    (hiv : st.intervals = [{ handle := h, roomId := r, timeLeft := 6 }])
    (ht : getProp st.timers r = some h)
    (hs : getProp st.roomUsers r = some (RoomVal.session 0))
    (hn : 1 ≤ n) (hlen : st.questions.length = n) :
    (elapse st (7 * n)).2.count (Msg.toRoom (some r) Event.quizStarted) = n - 1 := by
  obtain ⟨⟨h2, hiv2, ht2⟩, hs2, hq2, _⟩ := elapse_progress r (n - 1) st h 0 hiv ht hs (by omega)
  have hlt : ¬ 0 + (n - 1) + 1 < (elapse st (7 * (n - 1))).1.questions.length := by
    rw [hq2]; omega
  rw [show 7 * n = 7 * (n - 1) + 7 by omega, elapse_add,
    elapse_round_end (elapse st (7 * (n - 1))).1 h2 r (0 + (n - 1)) hiv2 ht2 hs2 hlt]
  simp only [List.count_append, elapse_progress_started r (n - 1) st h 0 hiv ht hs (by omega),
    count_quizStarted_countdownMsgs]
  simp

theorem elapse_advance_step (r : String) (k : Nat) (st : State) (h i : Nat)
    (hiv : st.intervals = [{ handle := h, roomId := r, timeLeft := 6 }])
    (ht : getProp st.timers r = some h)
    (hs : getProp st.roomUsers r = some (RoomVal.session i))
    (hlen : i + k + 1 < st.questions.length) :
    (elapseSecond (elapse st (7 * k + 6)).1).2
      = [Msg.toRoom (some r) (Event.nextQuestion (i + k + 1)), Msg.toRoom (some r) Event.quizStarted]
    ∧ (elapseSecond (elapse st (7 * k + 6)).1).1.intervals
      = [{ handle := (elapse st (7 * k + 6)).1.nextHandle, roomId := r, timeLeft := 6 }] := by
  obtain ⟨⟨h2, hiv2, ht2⟩, hs2, hq2, _⟩ := elapse_progress r k st h i hiv ht hs (by omega)
  have hlt : i + k + 1 < (elapse st (7 * k)).1.questions.length := by rw [hq2]; omega
  rw [elapse_add, elapse_countdown 6 (elapse st (7 * k)).1 h2 r hiv2]
  simp only
  rw [elapseSecond_advance
    { (elapse st (7 * k)).1 with intervals := [{ handle := h2, roomId := r, timeLeft := 0 }] }
    h2 r (i + k) rfl ht2 hs2 hlt]
  exact ⟨rfl, rfl⟩

theorem startQuizTimer_handlesFresh (st : State) (roomId : String) (h : HandlesFresh st) :
    HandlesFresh (startQuizTimer st roomId).1 := by
  intro iv hiv
  simp only [startQuizTimer, List.mem_append, List.mem_singleton] at hiv ⊢
  rcases hiv with hold | hnew
  · exact Nat.lt_succ_of_lt (h iv hold)
  · subst hnew
    exact Nat.lt_succ_self _

theorem nextQuestion_handlesFresh (st : State) (roomId : String) (h : HandlesFresh st) :
    HandlesFresh (nextQuestion st roomId).1 := by
  unfold nextQuestion
  split
  · split
    · exact startQuizTimer_handlesFresh _ roomId h
    · exact h
  · exact h

theorem clearInterval_handlesFresh (st : State) (c : Option Nat) (h : HandlesFresh st) :
    HandlesFresh (clearInterval st c) := by
  unfold clearInterval
  split
  · intro iv hiv
    exact h iv (List.mem_of_mem_filter hiv)
  · exact h

theorem intervalCallback_handlesFresh (st : State) (handle : Nat) (h : HandlesFresh st) :
    HandlesFresh (intervalCallback st handle).1 := by
  unfold intervalCallback
  split
  · exact h
  · split
    · intro iv hiv
      simp only [List.mem_map] at hiv
      obtain ⟨j, hj, hjv⟩ := hiv
      split at hjv
      · subst hjv
        exact h j hj
      · subst hjv
        exact h j hj
    · exact nextQuestion_handlesFresh _ _ (clearInterval_handlesFresh _ _ h)

theorem step_handlesFresh (st : State) (a : Action) (h : HandlesFresh st) :
    HandlesFresh (step st a).1 := by
  cases a with
  | createRoom s r => simp only [step, createRoom]; split <;> exact h
  | joinRoom s r =>
    simp only [step, joinRoom]
    split
    · split <;> exact h
    · exact h
  | joinQuiz s a b =>
    simp only [step, handleJoinQuiz]
    repeat' split
    all_goals exact h
  | startQuiz s r =>
    simp only [step, startQuiz]
    split
    · exact startQuizTimer_handlesFresh _ r h
    · exact h
  | submitAnswer s d => simpa only [step, handleSubmitAnswer_state] using h
  | disconnect s rooms =>
    simp only [step, disconnect]
    split
    · split <;> exact h
    · exact h
  | leaveRoom r => exact h
  | tick k => exact intervalCallback_handlesFresh st k h

theorem run_handlesFresh (actions : List Action) : ∀ st : State, HandlesFresh st →
    HandlesFresh (run st actions).1 := by
  induction actions with
  | nil => intro st h; exact h
  | cons a rest ih => intro st h; exact ih (step st a).1 (step_handlesFresh st a h)

/-- In every reachable state the handles of the live intervals are below the
next handle: an interval created by `setInterval` gets a handle no live
interval has. -/
theorem reachable_handlesFresh (st : State) (h : Reachable st) : HandlesFresh st := by
  obtain ⟨actions, rfl⟩ := h
  exact run_handlesFresh actions State.initial (fun iv hiv => by simp [State.initial] at hiv)

/-! ## Re-creating a room -/

/-- C11 as stated fails.  For the room id `constructor` no entry is there, yet
`createRoom` stores nothing (the read yields the function inherited from
`Object.prototype`, which is truthy) and announces that value, not `0`.  And
where `roomUsers['r']` holds `NaN` (after `joinRoom` incremented a session
object) the entry is not left unchanged: `createRoom` stores `0`. -/
theorem createRoom_count_counterexample :
    (createRoom State.initial "s1" "constructor").1.roomUsers = []
    ∧ (createRoom State.initial "s1" "constructor").2
      = [Msg.toRoom (some "constructor") (Event.UserJoined "constructor" RoomVal.inherited)]
    ∧ getProp (run State.initial
        [.createRoom "s1" "r", .startQuiz "s1" "r", .joinRoom "s2" "r"]).1.roomUsers "r"
      = some RoomVal.nan
    ∧ getProp (run State.initial
        [.createRoom "s1" "r", .startQuiz "s1" "r", .joinRoom "s2" "r",
         .createRoom "s1" "r"]).1.roomUsers "r"
      = some (RoomVal.num 0) := by
  refine ⟨?_, ?_, ?_, ?_⟩ <;> decide

/-- C11 amended: `createRoom` is idempotent.  For every state whose
`createdRooms` holds no id twice (it is a set), every socket and every room id
`x`: a second `createRoom(x)` by the same socket returns the state and the
message of the first; by any socket it leaves `createdRooms` and `roomUsers`
as the first left them and emits the same message; `x` is in `createdRooms`
exactly once.  When `roomUsers[x]` reads falsy (`undefined`, `0` or `NaN`) the
call stores `0` for `x`; when it reads truthy (a non-zero count, a session
object, or a value inherited from `Object.prototype`) it leaves `roomUsers`
unchanged.  Each call emits exactly one message, `UserJoined {roomId: x,
joinedUsers}` to the room, whose `joinedUsers` is what `roomUsers[x]` reads
after the call. -/
theorem createRoom_idempotent (st : State) (socketId x : String)
    (hset : st.createdRooms.Nodup) :
    createRoom (createRoom st socketId x).1 socketId x = createRoom st socketId x
    ∧ (∀ other,
        (createRoom (createRoom st socketId x).1 other x).1.createdRooms
          = (createRoom st socketId x).1.createdRooms
        ∧ (createRoom (createRoom st socketId x).1 other x).1.roomUsers
          = (createRoom st socketId x).1.roomUsers
        ∧ (createRoom (createRoom st socketId x).1 other x).2 = (createRoom st socketId x).2)
    ∧ (createRoom st socketId x).1.createdRooms.count x = 1
    ∧ (truthy (roomUsersRead st.roomUsers x) = false →
        (createRoom st socketId x).1.roomUsers = setProp st.roomUsers x (RoomVal.num 0)
        ∧ roomUsersRead (createRoom st socketId x).1.roomUsers x = some (RoomVal.num 0))
    ∧ (truthy (roomUsersRead st.roomUsers x) = true →
        (createRoom st socketId x).1.roomUsers = st.roomUsers)
    ∧ ∃ joinedUsers,
        (createRoom st socketId x).2 = [Msg.toRoom (some x) (Event.UserJoined x joinedUsers)]
        ∧ roomUsersRead (createRoom st socketId x).1.roomUsers x = some joinedUsers := by
  cases ht : truthy (roomUsersRead st.roomUsers x)
  · have hk := ne_proto_of_falsy st.roomUsers x ht
    have hread : roomUsersRead (setProp st.roomUsers x (RoomVal.num 0)) x
        = some (RoomVal.num 0) := roomUsersRead_setProp _ _ _ hk
    have ht2 : truthy (roomUsersRead (setProp st.roomUsers x (RoomVal.num 0)) x) = false := by
      rw [hread]; rfl
    have h2 : ∀ other, createRoom
        { st with createdRooms := setAdd st.createdRooms x
                  attached := socketJoin st.attached socketId x
                  roomUsers := setProp st.roomUsers x (RoomVal.num 0) } other x = _ :=
      fun other => createRoom_falsy _ other x ht2
    rw [createRoom_falsy st socketId x ht]
    refine ⟨?_, ?_, count_setAdd st.createdRooms x hset, fun _ => ⟨rfl, hread⟩,
      fun h => by simp at h, ⟨RoomVal.num 0, rfl, hread⟩⟩
    · rw [h2 socketId]
      simp [setAdd_idem, setProp_setProp, socketJoin_idem]
    · intro other
      rw [h2 other]
      simp [setAdd_idem, setProp_setProp]
  · cases hg : roomUsersRead st.roomUsers x with
    | none => rw [hg] at ht; simp [truthy] at ht
    | some v =>
      rw [hg] at ht
      have h2 : ∀ other, createRoom
          { st with createdRooms := setAdd st.createdRooms x
                    attached := socketJoin st.attached socketId x } other x = _ :=
        fun other => createRoom_truthy _ other x v hg ht
      rw [createRoom_truthy st socketId x v hg ht]
      refine ⟨?_, ?_, count_setAdd st.createdRooms x hset, fun h => by simp at h,
        fun _ => rfl, ⟨v, rfl, hg⟩⟩
      · rw [h2 socketId]
        simp [setAdd_idem, socketJoin_idem]
      · intro other
        rw [h2 other]
        simp [setAdd_idem]

/-- C11 amended, at a concrete input: room `r` created by `s1` on a state where
room `a` exists. -/
theorem createRoom_idempotent_witness :
    createRoom (createRoom roomACreated "s1" "r").1 "s1" "r" = createRoom roomACreated "s1" "r"
    ∧ (∀ other,
        (createRoom (createRoom roomACreated "s1" "r").1 other "r").1.createdRooms
          = (createRoom roomACreated "s1" "r").1.createdRooms
        ∧ (createRoom (createRoom roomACreated "s1" "r").1 other "r").1.roomUsers
          = (createRoom roomACreated "s1" "r").1.roomUsers
        ∧ (createRoom (createRoom roomACreated "s1" "r").1 other "r").2
          = (createRoom roomACreated "s1" "r").2)
    ∧ (createRoom roomACreated "s1" "r").1.createdRooms.count "r" = 1
    ∧ (truthy (roomUsersRead roomACreated.roomUsers "r") = false →
        (createRoom roomACreated "s1" "r").1.roomUsers
          = setProp roomACreated.roomUsers "r" (RoomVal.num 0)
        ∧ roomUsersRead (createRoom roomACreated "s1" "r").1.roomUsers "r"
          = some (RoomVal.num 0))
    ∧ (truthy (roomUsersRead roomACreated.roomUsers "r") = true →
        (createRoom roomACreated "s1" "r").1.roomUsers = roomACreated.roomUsers)
    ∧ ∃ joinedUsers,
        (createRoom roomACreated "s1" "r").2
          = [Msg.toRoom (some "r") (Event.UserJoined "r" joinedUsers)]
        ∧ roomUsersRead (createRoom roomACreated "s1" "r").1.roomUsers "r"
          = some joinedUsers :=
  createRoom_idempotent roomACreated "s1" "r" (by decide)

/-- The two `createRoom` calls of C11 evaluated on the initial state, and on a
room that already counts one member. -/
theorem createRoom_twice_example :
    (run State.initial [.createRoom "s1" "r", .createRoom "s1" "r"]).1.roomUsers
      = [("r", RoomVal.num 0)]
    ∧ (run State.initial [.createRoom "s1" "r", .createRoom "s1" "r"]).1.createdRooms = ["r"]
    ∧ (run State.initial [.createRoom "s1" "r", .createRoom "s1" "r"]).2
      = [Msg.toRoom (some "r") (Event.UserJoined "r" (RoomVal.num 0)),
         Msg.toRoom (some "r") (Event.UserJoined "r" (RoomVal.num 0))]
    ∧ (run State.initial [.createRoom "s1" "r", .joinRoom "s2" "r", .createRoom "s1" "r"]).2
      = [Msg.toRoom (some "r") (Event.UserJoined "r" (RoomVal.num 0)),
         Msg.toRoom (some "r") (Event.UserJoined "r" (RoomVal.num 1)),
         Msg.toRoom (some "r") (Event.UserJoined "r" (RoomVal.num 1))] := by
  refine ⟨?_, ?_, ?_, ?_⟩ <;> decide

/-! ## Unknown questions -/

/-- C12: when the question id of a submission matches no loaded question,
`handleSubmitAnswer` changes no state and emits exactly one message,
`answerResult {success: false, message: 'Question not found'}`, to the calling
socket; nothing goes to the room.  This holds whatever the room id is. -/
theorem handleSubmitAnswer_question_not_found (st : State) (socketId : String) (d : SubmitData)
    (h : ∀ q ∈ st.questions, some q._id ≠ d.questionId) :
    handleSubmitAnswer st socketId (some d)
      = (st, [Msg.toSocket socketId (Event.answerResult false none (some "Question not found"))]) := by
  have hfind : st.questions.find? (fun q => some q._id == d.questionId) = none := by
    rw [List.find?_eq_none]
    intro q hq
    simpa using h q hq
  simp only [handleSubmitAnswer, hfind]

/-- C12 at a concrete input: the id `bad-id` against the example catalog, with
a defined room id. -/
theorem handleSubmitAnswer_question_not_found_witness :
    handleSubmitAnswer exampleCatalog "s1"
        (some { questionId := some "bad-id", selectedOption := some "A", roomId := some "room" })
      = (exampleCatalog,
          [Msg.toSocket "s1" (Event.answerResult false none (some "Question not found"))]) :=
  handleSubmitAnswer_question_not_found exampleCatalog "s1"
    { questionId := some "bad-id", selectedOption := some "A", roomId := some "room" }
    (by decide)

/-! ## Successful joins -/

/-- C13 as stated fails.  Room `constructor` is created and has no entry in
`roomUsers`; the `joinRoom` that follows reads the function inherited from
`Object.prototype`, not `undefined`, and stores and broadcasts `NaN`, not `1`. -/
theorem joinRoom_inherited_counterexample :
    (run State.initial [.createRoom "s1" "constructor"]).1.roomUsers = []
    ∧ (run State.initial [.createRoom "s1" "constructor", .joinRoom "s2" "constructor"]).1.roomUsers
      = [("constructor", RoomVal.nan)]
    ∧ (run State.initial [.createRoom "s1" "constructor", .joinRoom "s2" "constructor"]).2.getLast?
      = some (Msg.toRoom (some "constructor") (Event.UserJoined "constructor" RoomVal.nan)) := by
  refine ⟨?_, ?_, ?_⟩ <;> decide

/-- C13 amended: for a room in `createdRooms`, `joinRoom` attaches the
connection (the pair of the socket and the room is in `attached` afterwards),
leaves `createdRooms`, the catalog and the timers as they are, and emits
exactly one message, `UserJoined {roomId, joinedUsers}` to the room, whose
`joinedUsers` is what `roomUsers[roomId]` reads after the call.  When
`roomUsers[roomId]` read a count `c`, or `undefined` (and then `c = 0`), the
call stores `c + 1` and broadcasts `c + 1`.  When it read a value inherited
from `Object.prototype` (a room id such as `constructor` that has no entry of
its own), the call stores and broadcasts `NaN`. -/
theorem joinRoom_success (st : State) (socketId roomId : String)
    (hroom : roomId ∈ st.createdRooms) :
    (socketId, roomId) ∈ (joinRoom st socketId roomId).1.attached
    ∧ (joinRoom st socketId roomId).1.createdRooms = st.createdRooms
    ∧ (joinRoom st socketId roomId).1.questions = st.questions
    ∧ (joinRoom st socketId roomId).1.answers = st.answers
    ∧ (joinRoom st socketId roomId).1.timers = st.timers
    ∧ (joinRoom st socketId roomId).1.intervals = st.intervals
    ∧ (∃ joinedUsers,
        (joinRoom st socketId roomId).2
          = [Msg.toRoom (some roomId) (Event.UserJoined roomId joinedUsers)]
        ∧ roomUsersRead (joinRoom st socketId roomId).1.roomUsers roomId = some joinedUsers)
    ∧ (∀ c : Int,
        (roomUsersRead st.roomUsers roomId = some (RoomVal.num c)
          ∨ (roomUsersRead st.roomUsers roomId = none ∧ c = 0)) →
        (joinRoom st socketId roomId).1.roomUsers
          = setProp st.roomUsers roomId (RoomVal.num (c + 1))
        ∧ (joinRoom st socketId roomId).2
          = [Msg.toRoom (some roomId) (Event.UserJoined roomId (RoomVal.num (c + 1)))])
    ∧ (roomId ≠ "__proto__" → roomUsersRead st.roomUsers roomId = some RoomVal.inherited →
        (joinRoom st socketId roomId).1.roomUsers = setProp st.roomUsers roomId RoomVal.nan
        ∧ (joinRoom st socketId roomId).2
          = [Msg.toRoom (some roomId) (Event.UserJoined roomId RoomVal.nan)]) := by
  have hgen := joinRoom_created st socketId roomId hroom _ rfl
  refine ⟨?_, ?_, ?_, ?_, ?_, ?_, ?_, ?_, ?_⟩
  · rw [hgen]; exact mem_socketJoin _ _ _
  · rw [hgen]
  · rw [hgen]
  · rw [hgen]
  · rw [hgen]
  · rw [hgen]
  · rw [hgen]
    exact ⟨_, rfl, roomUsersRead_write _ _ _⟩
  · intro c hc
    rcases hc with hc | ⟨hc, h0⟩
    · by_cases hz : c = 0
      · subst hz
        rw [joinRoom_falsy st socketId roomId hroom (by rw [hc]; rfl)]
        exact ⟨rfl, rfl⟩
      · rw [joinRoom_truthy st socketId roomId _ hroom hc (by simpa [truthy] using hz)
          (ne_proto_of_read_num _ _ _ hc)]
        exact ⟨rfl, rfl⟩
    · subst h0
      rw [joinRoom_falsy st socketId roomId hroom (by rw [hc]; rfl)]
      exact ⟨rfl, rfl⟩
  · intro hk hinh
    rw [joinRoom_truthy st socketId roomId _ hroom hinh rfl hk]
    exact ⟨rfl, rfl⟩

/-- C13 amended, at a concrete input: the second join of room `r`. -/
theorem joinRoom_success_witness :
    ("s2", "r") ∈ (joinRoom roomRJoinedOnce "s2" "r").1.attached
    ∧ (joinRoom roomRJoinedOnce "s2" "r").1.createdRooms = roomRJoinedOnce.createdRooms
    ∧ (joinRoom roomRJoinedOnce "s2" "r").1.questions = roomRJoinedOnce.questions
    ∧ (joinRoom roomRJoinedOnce "s2" "r").1.answers = roomRJoinedOnce.answers
    ∧ (joinRoom roomRJoinedOnce "s2" "r").1.timers = roomRJoinedOnce.timers
    ∧ (joinRoom roomRJoinedOnce "s2" "r").1.intervals = roomRJoinedOnce.intervals
    ∧ (∃ joinedUsers,
        (joinRoom roomRJoinedOnce "s2" "r").2
          = [Msg.toRoom (some "r") (Event.UserJoined "r" joinedUsers)]
        ∧ roomUsersRead (joinRoom roomRJoinedOnce "s2" "r").1.roomUsers "r" = some joinedUsers)
    ∧ (∀ c : Int,
        (roomUsersRead roomRJoinedOnce.roomUsers "r" = some (RoomVal.num c)
          ∨ (roomUsersRead roomRJoinedOnce.roomUsers "r" = none ∧ c = 0)) →
        (joinRoom roomRJoinedOnce "s2" "r").1.roomUsers
          = setProp roomRJoinedOnce.roomUsers "r" (RoomVal.num (c + 1))
        ∧ (joinRoom roomRJoinedOnce "s2" "r").2
          = [Msg.toRoom (some "r") (Event.UserJoined "r" (RoomVal.num (c + 1)))])
    ∧ ("r" ≠ "__proto__" → roomUsersRead roomRJoinedOnce.roomUsers "r" = some RoomVal.inherited →
        (joinRoom roomRJoinedOnce "s2" "r").1.roomUsers
          = setProp roomRJoinedOnce.roomUsers "r" RoomVal.nan
        ∧ (joinRoom roomRJoinedOnce "s2" "r").2
          = [Msg.toRoom (some "r") (Event.UserJoined "r" RoomVal.nan)]) :=
  joinRoom_success roomRJoinedOnce "s2" "r" (by decide)

/-- The join of C13 evaluated: the second join of room `r` stores and
broadcasts `2`, and the sockets `s1` and `s2` are attached to `r`. -/
theorem joinRoom_twice_example :
    (joinRoom roomRJoinedOnce "s2" "r").1.roomUsers = [("r", RoomVal.num 2)]
    ∧ (joinRoom roomRJoinedOnce "s2" "r").2
      = [Msg.toRoom (some "r") (Event.UserJoined "r" (RoomVal.num 2))]
    ∧ (joinRoom roomRJoinedOnce "s2" "r").1.attached = [("s1", "r"), ("s2", "r")] := by
  refine ⟨?_, ?_, ?_⟩ <;> decide

/-- What `joinRoom` does with the other values `roomUsers[roomId]` can read: a
`NaN` slot is falsy, is taken for `0` and becomes `1`; a session object is
incremented to `NaN`; and for the room id `__proto__` the assignment of the
number is ignored, so that `roomUsers` stays as it is and the broadcast carries
the prototype. -/
theorem joinRoom_other_slots (st : State) (socketId roomId : String)
    (hroom : roomId ∈ st.createdRooms) :
    (roomUsersRead st.roomUsers roomId = some RoomVal.nan →
        (joinRoom st socketId roomId).1.roomUsers = setProp st.roomUsers roomId (RoomVal.num 1)
        ∧ (joinRoom st socketId roomId).2
          = [Msg.toRoom (some roomId) (Event.UserJoined roomId (RoomVal.num 1))])
    ∧ (∀ i, roomId ≠ "__proto__" → roomUsersRead st.roomUsers roomId = some (RoomVal.session i) →
        (joinRoom st socketId roomId).1.roomUsers = setProp st.roomUsers roomId RoomVal.nan
        ∧ (joinRoom st socketId roomId).2
          = [Msg.toRoom (some roomId) (Event.UserJoined roomId RoomVal.nan)])
    ∧ (roomId = "__proto__" →
        (joinRoom st socketId roomId).1.roomUsers = st.roomUsers
        ∧ (joinRoom st socketId roomId).2
          = [Msg.toRoom (some roomId) (Event.UserJoined roomId (protoValue st.roomUsers))]) := by
  refine ⟨?_, ?_, ?_⟩
  · intro hnan
    rw [joinRoom_falsy st socketId roomId hroom (by rw [hnan]; rfl)]
    exact ⟨rfl, rfl⟩
  · intro i hk hs
    rw [joinRoom_truthy st socketId roomId _ hroom hs rfl hk]
    exact ⟨rfl, rfl⟩
  · intro hk
    subst hk
    have ht : truthy (roomUsersRead st.roomUsers "__proto__") = true := by
      simp [roomUsersRead, truthy_protoValue]
    rw [joinRoom_created st socketId "__proto__" hroom st.roomUsers (by simp [ht])]
    have hinc : increment (roomUsersRead st.roomUsers "__proto__") = RoomVal.nan := by
      simp only [roomUsersRead, if_true, protoValue]
      split <;> rfl
    simp [hinc, roomUsersWrite, valueAfterWrite]

/-! ## Totality of answer submission -/

/-- C14: `handleSubmitAnswer` is total and changes no state.  For every state
and every payload it returns the state it was given and emits exactly one
message, which is an `answerResult` failure to the caller, an `answerResult`
success to a room, or `error` with `Error processing answer` to the caller.
The last is what an `undefined` payload gives, and what a question id gives
that matches a loaded question but no answer key. -/
theorem handleSubmitAnswer_total (st : State) (socketId : String) (data : Option SubmitData) :
    (handleSubmitAnswer st socketId data).1 = st
    ∧ ((∃ text, (handleSubmitAnswer st socketId data).2
            = [Msg.toSocket socketId (Event.answerResult false none (some text))])
      ∨ (∃ roomId c, (handleSubmitAnswer st socketId data).2
            = [Msg.toRoom (some roomId) (Event.answerResult true (some c) none)])
      ∨ (handleSubmitAnswer st socketId data).2
            = [Msg.toSocket socketId (Event.error "Error processing answer")])
    ∧ (handleSubmitAnswer st socketId none).2
        = [Msg.toSocket socketId (Event.error "Error processing answer")]
    ∧ (∀ d question roomId,
        st.questions.find? (fun q => some q._id == d.questionId) = some question →
        d.roomId = some roomId →
        st.answers.find? (fun a => some a._id == d.questionId) = none →
        (handleSubmitAnswer st socketId (some d)).2
          = [Msg.toSocket socketId (Event.error "Error processing answer")]) := by
  refine ⟨handleSubmitAnswer_state st socketId data, ?_, rfl, ?_⟩
  · simp only [handleSubmitAnswer]
    repeat' split
    · exact Or.inr (Or.inr rfl)
    · exact Or.inl ⟨_, rfl⟩
    · exact Or.inl ⟨_, rfl⟩
    · exact Or.inr (Or.inr rfl)
    · exact Or.inr (Or.inl ⟨_, _, rfl⟩)
  · intro d question roomId hq hr ha
    simp only [handleSubmitAnswer, hq, hr, ha]

/-! ## The answer key stays on the server -/

/-- C15: the messages of an answer submission depend on the answer key only
through the `correct` flag.  For two states with the same questions whose
answer-key lists hold the same ids in the same order (they differ in the key
indices only), a submission whose emitted `correct` flags agree emits
identical messages under both; and a payload with `success: true` has a
`correct` flag and no `message`, hence no field that holds the key. -/
theorem handleSubmitAnswer_key_not_exposed (st1 st2 : State) (socketId : String)
    (data : Option SubmitData)
    (hq : st1.questions = st2.questions)
    (hids : st1.answers.map (fun a => a._id) = st2.answers.map (fun a => a._id))
    (hflag : (handleSubmitAnswer st1 socketId data).2.map Msg.correctFlag
      = (handleSubmitAnswer st2 socketId data).2.map Msg.correctFlag) :
    (handleSubmitAnswer st1 socketId data).2 = (handleSubmitAnswer st2 socketId data).2
    ∧ ∀ target c text,
        Msg.toRoom target (Event.answerResult true c text) ∈ (handleSubmitAnswer st1 socketId data).2 →
        c.isSome = true ∧ text = none := by
  constructor
  · cases data with
    | none => rfl
    | some d =>
      have hsome := find_answer_isSome_congr d.questionId st1.answers st2.answers hids
      simp only [handleSubmitAnswer, hq] at hflag ⊢
      cases hfq : st2.questions.find? (fun q => some q._id == d.questionId) with
      | none => rfl
      | some question =>
        cases hr : d.roomId with
        | none => rfl
        | some roomId =>
          rw [hfq, hr] at hflag
          cases h1 : st1.answers.find? (fun a => some a._id == d.questionId) with
          | none =>
            cases h2 : st2.answers.find? (fun a => some a._id == d.questionId) with
            | none => rfl
            | some k2 => rw [h1, h2] at hsome; simp at hsome
          | some k1 =>
            cases h2 : st2.answers.find? (fun a => some a._id == d.questionId) with
            | none => rw [h1, h2] at hsome; simp at hsome
            | some k2 =>
              rw [h1, h2] at hflag
              simp only [List.map_cons, List.map_nil, Msg.correctFlag, List.cons.injEq,
                Option.some.injEq, and_true] at hflag
              simp only [hflag]
  · intro target c text hmem
    simp only [handleSubmitAnswer] at hmem
    repeat' split at hmem
    all_goals simp at hmem
    obtain ⟨_, hc, ht⟩ := hmem
    subst hc ht
    exact ⟨rfl, rfl⟩

/-- C15 at a concrete input: key index `1` against key index `2` for the
options `A`, `B`, `C`; the text `A` is wrong under both. -/
theorem handleSubmitAnswer_key_not_exposed_witness :
    (handleSubmitAnswer exampleCatalog "s1"
        (some { questionId := some "q1", selectedOption := some "A", roomId := some "room" })).2
      = (handleSubmitAnswer exampleCatalogKey2 "s1"
        (some { questionId := some "q1", selectedOption := some "A", roomId := some "room" })).2
    ∧ ∀ target c text,
        Msg.toRoom target (Event.answerResult true c text) ∈ (handleSubmitAnswer exampleCatalog "s1"
          (some { questionId := some "q1", selectedOption := some "A", roomId := some "room" })).2 →
        c.isSome = true ∧ text = none :=
  handleSubmitAnswer_key_not_exposed exampleCatalog exampleCatalogKey2 "s1"
    (some { questionId := some "q1", selectedOption := some "A", roomId := some "room" })
    rfl (by decide) (by decide)

/-! ## One countdown -/

/-- C16: a countdown started by `startQuizTimer` in a state where no live
interval has the new handle, and whose callback alone runs afterwards.  The
first six runs broadcast `quizTimerUpdate` 5, 4, 3, 2, 1, 0 to the room.  The
seventh run cancels the interval (the live intervals are those from before the
start) and calls `nextQuestion` once on that state; its output is all the
seventh run emits.  After that the interval is not live: any number of further
runs of its callback changes nothing and emits nothing. -/
theorem startQuizTimer_countdown (st : State) (roomId : String)
    (hfresh : ∀ iv ∈ st.intervals, iv.handle ≠ st.nextHandle) :
    (run (startQuizTimer st roomId).1 (List.replicate 6 (Action.tick st.nextHandle))).2
      = [Msg.toRoom (some roomId) (Event.quizTimerUpdate 5),
         Msg.toRoom (some roomId) (Event.quizTimerUpdate 4),
         Msg.toRoom (some roomId) (Event.quizTimerUpdate 3),
         Msg.toRoom (some roomId) (Event.quizTimerUpdate 2),
         Msg.toRoom (some roomId) (Event.quizTimerUpdate 1),
         Msg.toRoom (some roomId) (Event.quizTimerUpdate 0)]
    ∧ run (startQuizTimer st roomId).1 (List.replicate 7 (Action.tick st.nextHandle))
      = ((nextQuestion { (startQuizTimer st roomId).1 with intervals := st.intervals } roomId).1,
         (run (startQuizTimer st roomId).1 (List.replicate 6 (Action.tick st.nextHandle))).2
          ++ (nextQuestion { (startQuizTimer st roomId).1 with intervals := st.intervals }
                roomId).2)
    ∧ ∀ k,
        run (run (startQuizTimer st roomId).1 (List.replicate 7 (Action.tick st.nextHandle))).1
            (List.replicate k (Action.tick st.nextHandle))
          = ((run (startQuizTimer st roomId).1
                (List.replicate 7 (Action.tick st.nextHandle))).1, []) := by
  have h6 := run_ticks_countdown st.intervals st.nextHandle roomId hfresh 6
    (startQuizTimer st roomId).1 rfl
  have h7 : run (startQuizTimer st roomId).1 (List.replicate 7 (Action.tick st.nextHandle))
      = ((nextQuestion { (startQuizTimer st roomId).1 with intervals := st.intervals } roomId).1,
         countdownMsgs roomId 6
          ++ (nextQuestion { (startQuizTimer st roomId).1 with intervals := st.intervals }
                roomId).2) := by
    rw [show List.replicate 7 (Action.tick st.nextHandle)
        = List.replicate 6 (Action.tick st.nextHandle) ++ [Action.tick st.nextHandle] from rfl,
      run_append, h6]
    simp only [run, step, List.append_nil]
    rw [intervalCallback_expire _ st.intervals st.nextHandle roomId rfl hfresh
      (by simp [startQuizTimer, getProp_setProp])]
  refine ⟨by rw [h6]; rfl, by rw [h7, h6], ?_⟩
  intro k
  apply run_ticks_cleared
  rw [h7]
  intro iv hiv
  rcases nextQuestion_intervals
    { (startQuizTimer st roomId).1 with intervals := st.intervals } roomId with h | h
  · rw [h] at hiv
    exact hfresh iv hiv
  · rw [h] at hiv
    rcases List.mem_append.mp hiv with hold | hnew
    · exact hfresh iv hold
    · simp only [List.mem_singleton] at hnew
      subst hnew
      simp [startQuizTimer]

/-- C16 at a concrete input: a countdown for room `r` started while room `b`
has its own countdown running. -/
theorem startQuizTimer_countdown_witness :
    (run (startQuizTimer otherRoomRunning "r").1
        (List.replicate 6 (Action.tick otherRoomRunning.nextHandle))).2
      = [Msg.toRoom (some "r") (Event.quizTimerUpdate 5),
         Msg.toRoom (some "r") (Event.quizTimerUpdate 4),
         Msg.toRoom (some "r") (Event.quizTimerUpdate 3),
         Msg.toRoom (some "r") (Event.quizTimerUpdate 2),
         Msg.toRoom (some "r") (Event.quizTimerUpdate 1),
         Msg.toRoom (some "r") (Event.quizTimerUpdate 0)]
    ∧ run (startQuizTimer otherRoomRunning "r").1
        (List.replicate 7 (Action.tick otherRoomRunning.nextHandle))
      = ((nextQuestion { (startQuizTimer otherRoomRunning "r").1 with
            intervals := otherRoomRunning.intervals } "r").1,
         (run (startQuizTimer otherRoomRunning "r").1
            (List.replicate 6 (Action.tick otherRoomRunning.nextHandle))).2
          ++ (nextQuestion { (startQuizTimer otherRoomRunning "r").1 with
                intervals := otherRoomRunning.intervals } "r").2)
    ∧ ∀ k,
        run (run (startQuizTimer otherRoomRunning "r").1
              (List.replicate 7 (Action.tick otherRoomRunning.nextHandle))).1
            (List.replicate k (Action.tick otherRoomRunning.nextHandle))
          = ((run (startQuizTimer otherRoomRunning "r").1
                (List.replicate 7 (Action.tick otherRoomRunning.nextHandle))).1, []) :=
  startQuizTimer_countdown otherRoomRunning "r" (by decide)

/-- The countdown of C16 evaluated for room `r` of `threeQuestions` after
`startQuiz`: seven runs of the callback emit the six updates and then the
advance to question `1`; twenty more runs of the same callback emit nothing. -/
theorem threeQuestions_countdown_example :
    (run (startQuiz threeQuestions "s1" "r").1 (List.replicate 7 (Action.tick 0))).2
      = [Msg.toRoom (some "r") (Event.quizTimerUpdate 5),
         Msg.toRoom (some "r") (Event.quizTimerUpdate 4),
         Msg.toRoom (some "r") (Event.quizTimerUpdate 3),
         Msg.toRoom (some "r") (Event.quizTimerUpdate 2),
         Msg.toRoom (some "r") (Event.quizTimerUpdate 1),
         Msg.toRoom (some "r") (Event.quizTimerUpdate 0),
         Msg.toRoom (some "r") (Event.nextQuestion 1),
         Msg.toRoom (some "r") Event.quizStarted]
    ∧ (run (startQuiz threeQuestions "s1" "r").1 (List.replicate 27 (Action.tick 0))).2
      = (run (startQuiz threeQuestions "s1" "r").1 (List.replicate 7 (Action.tick 0))).2 := by
  constructor <;> decide

/-! ## `quizStarted` on every round -/

/-- C17 as stated fails: with three questions, one `startQuiz` and the 21
seconds of the run broadcast `quizStarted` three times, and the advance to
question `1` (the seventh second) broadcasts `nextQuestion 1` followed by
`quizStarted`. -/
theorem quizStarted_once_counterexample :
    ((startQuiz threeQuestions "s1" "r").2
        ++ (elapse (startQuiz threeQuestions "s1" "r").1 21).2).count
          (Msg.toRoom (some "r") Event.quizStarted) = 3
    ∧ (elapseSecond (elapse (startQuiz threeQuestions "s1" "r").1 6).1).2
      = [Msg.toRoom (some "r") (Event.nextQuestion 1), Msg.toRoom (some "r") Event.quizStarted] := by
  constructor <;> decide

/-- C17 amended: from a state with `n >= 1` loaded questions and no live
timer, `startQuiz` on a created room emits exactly `quizStarted`, before any
`quizTimerUpdate`.  Every timer-driven advance to a later question (the
seventh second of round `k`, for `k + 1 < n`) broadcasts `nextQuestion` with
the new index `k + 1` followed by `quizStarted`, and leaves one live interval
with `timeLeft` 6.  Over the whole run `quizStarted` is broadcast `n` times,
once per question. -/
theorem quizStarted_every_round (st : State) (socketId roomId : String) (n : Nat)
    (hn : 1 ≤ n) (hlen : st.questions.length = n)
    (hroom : roomId ∈ st.createdRooms) (hidle : st.intervals = []) :
    (startQuiz st socketId roomId).2 = [Msg.toRoom (some roomId) Event.quizStarted]
    ∧ (∀ k, k + 1 < n →
        (elapseSecond (elapse (startQuiz st socketId roomId).1 (7 * k + 6)).1).2
          = [Msg.toRoom (some roomId) (Event.nextQuestion (k + 1)),
             Msg.toRoom (some roomId) Event.quizStarted]
        ∧ (elapseSecond (elapse (startQuiz st socketId roomId).1 (7 * k + 6)).1).1.intervals
          = [{ handle := (elapse (startQuiz st socketId roomId).1 (7 * k + 6)).1.nextHandle,
               roomId := roomId, timeLeft := 6 }])
    ∧ ((startQuiz st socketId roomId).2
        ++ (elapse (startQuiz st socketId roomId).1 (7 * n)).2).count
          (Msg.toRoom (some roomId) Event.quizStarted) = n := by
  obtain ⟨hiv, ht, hs, hq⟩ := startQuiz_running st socketId roomId hroom hidle
  have hlen1 : (startQuiz st socketId roomId).1.questions.length = n := by rw [hq, hlen]
  have hmsg : (startQuiz st socketId roomId).2 = [Msg.toRoom (some roomId) Event.quizStarted] := by
    simp [startQuiz, hroom, startQuizTimer]
  refine ⟨hmsg, ?_, ?_⟩
  · intro k hk
    have h := elapse_advance_step roomId k _ _ 0 hiv ht hs (by omega)
    simpa only [Nat.zero_add] using h
  · rw [List.count_append, elapse_finish_started roomId n _ _ hiv ht hs hn hlen1, hmsg]
    simp only [List.count_cons_self, List.count_nil]
    omega

/-- C17 amended, at `n = 3`. -/
theorem quizStarted_every_round_witness :
    (startQuiz threeQuestions "s1" "r").2 = [Msg.toRoom (some "r") Event.quizStarted]
    ∧ (∀ k, k + 1 < 3 →
        (elapseSecond (elapse (startQuiz threeQuestions "s1" "r").1 (7 * k + 6)).1).2
          = [Msg.toRoom (some "r") (Event.nextQuestion (k + 1)),
             Msg.toRoom (some "r") Event.quizStarted]
        ∧ (elapseSecond (elapse (startQuiz threeQuestions "s1" "r").1 (7 * k + 6)).1).1.intervals
          = [{ handle := (elapse (startQuiz threeQuestions "s1" "r").1 (7 * k + 6)).1.nextHandle,
               roomId := "r", timeLeft := 6 }])
    ∧ ((startQuiz threeQuestions "s1" "r").2
        ++ (elapse (startQuiz threeQuestions "s1" "r").1 (7 * 3)).2).count
          (Msg.toRoom (some "r") Event.quizStarted) = 3 :=
  quizStarted_every_round threeQuestions "s1" "r" 3 (by decide) rfl (by decide) rfl

end QuizServer
